import Mathlib

/-!
Verification development for the MedMind AI conversational session and
LLM-response-extraction pipeline.

Strings are modelled as `List Char`.  The JavaScript regular expressions of
the source are hand-compiled into explicit scanning functions whose
backtracking behaviour mirrors the JS engine on the pattern shapes that
occur (literal label, greedy `\s*`, lazy capture with lookahead, greedy
`(.+)`, lazy `.*?` followed by a digit run).
-/

namespace MedMind

/-- Character-list strings, the base representation of JS strings here. -/
abbrev Str := List Char

/-- Whitespace test mirroring the JS `\s` character class (ASCII part). -/
def isWsC (c : Char) : Bool :=
  c == ' ' || c == '\t' || c == '\n' || c == '\r' || c == '\x0b' || c == '\x0c'

/-- Decimal digit test mirroring the JS `\d` character class `[0-9]`. -/
def isDigitC (c : Char) : Bool :=
  c == '0' || c == '1' || c == '2' || c == '3' || c == '4' || c == '5' ||
  c == '6' || c == '7' || c == '8' || c == '9'

/-- ASCII lower-casing, used for the case-insensitive (`/i`) regex flags. -/
def lowerC (c : Char) : Char :=
  if 'A' ≤ c && c ≤ 'Z' then Char.ofNat (c.toNat + 32) else c

/-- Test whether `pat` is a (case-sensitive) prefix of `s`. -/
def begins (pat s : Str) : Bool :=
  match pat, s with
  | [], _ => true
  | _ :: _, [] => false
  | p :: ps, c :: cs => p == c && begins ps cs

/-- Case-insensitive prefix test (models a `/i` literal match). -/
def beginsCI (pat s : Str) : Bool :=
  begins (pat.map lowerC) (s.map lowerC)

/-- Suffix of `s` following the first occurrence of `pat`, if any.
This is the position at which a JS regex beginning with the literal `pat`
starts matching its continuation. -/
def splitFirst (pat : Str) : Str → Option Str
  | [] => if pat.isEmpty then some [] else none
  | c :: s =>
    if begins pat (c :: s) then some ((c :: s).drop pat.length)
    else splitFirst pat s

/-- Shortest prefix of `s` whose end satisfies the lookahead
`(?=\n\n|stop|$)`: capture up to a blank line, the stop label, or the end. -/
def captureUntil (stop : Str) : Str → Str
  | [] => []
  | c :: s =>
    if begins ['\n', '\n'] (c :: s) || begins stop (c :: s) then []
    else c :: captureUntil stop s

/-- Everything strictly before the first occurrence of `pat` (all of `s`
when `pat` does not occur). -/
def upTo (pat : Str) : Str → Str
  | [] => []
  | c :: s => if begins pat (c :: s) then [] else c :: upTo pat s

/-- Remove trailing JS whitespace. -/
def trimR (s : Str) : Str :=
  (s.reverse.dropWhile isWsC).reverse

/-- Model of JS `String.prototype.trim`. -/
def trim (s : Str) : Str :=
  trimR (s.dropWhile isWsC)

/-- Hand-compiled form of the source regexes
`/Label:\s*(.*?)(?=\n\n|Stop:|$)/s` applied with `.match`: find the first
occurrence of the label, skip the greedy whitespace run, lazily capture up
to a blank line, the stop label or the end, and trim the capture. -/
def matchSection (label stop s : Str) : Option Str :=
  match splitFirst label s with
  | none => none
  | some rest => some (trim (captureUntil stop (rest.dropWhile isWsC)))

/-- Model of the JS truthiness idiom `x?.[1]?.trim() || dflt`:
a missing match or an empty trimmed capture falls back to the default. -/
def orDefault (v : Option Str) (dflt : Str) : Str :=
  match v with
  | none => dflt
  | some t => if t.isEmpty then dflt else t

/-- Label constants of the medical-record regexes in `MyDoc.tsx`. -/
def labSym : Str := "Reported Symptoms:".toList

def labDiag : Str := "Diagnosis Summary:".toList

def labMed : Str := "Recommended Medications:".toList

def labAdv : Str := "General Advice:".toList

def labFU : Str := "Follow-Up:".toList

def labDoc : Str := "Doctor:".toList

/-- Label constants of the wellness-plan regexes in `HealthFeed.tsx`. -/
def labGoals : Str := "Health Goals:".toList

def labRecs : Str := "Recommendations:".toList

def labExer : Str := "Exercise Plan:".toList

def labNutr : Str := "Nutrition Guidelines:".toList

def labLife : Str := "Lifestyle Modifications:".toList

def labCoach : Str := "Health Coach:".toList

/-- User profile rows consumed by the extractors (from `UserProfileData`). -/
structure UserProfileData where
  full_name : Str
  age : Nat
  gender : Str
  past_medical_history : Option Str
  tobacco_use : Bool
  current_medications : Option Str
deriving DecidableEq, Repr

/-- Structured prescription record (from the `Prescription` interface). -/
structure Prescription where
  patientName : Str
  date : Str
  symptoms : Str
  diagnosis : Str
  medications : Str
  advice : Str
  followUp : Str
  doctor : Str
deriving DecidableEq, Repr

/-- Structured wellness-plan record (from the `HealthPlan` interface). -/
structure HealthPlan where
  patientName : Str
  date : Str
  goals : Str
  recommendations : Str
  exercises : Str
  nutrition : Str
  lifestyle : Str
  followUp : Str
  doctor : Str
deriving DecidableEq, Repr

/-- Embedding of `extractPrescriptionData` (MyDoc.tsx).  The component
state it reads is made explicit: the profile state, the current input box
text (`inputMessage`, the symptoms fallback) and the value of
`new Date().toLocaleDateString()` at call time. -/
def extractPrescriptionData (userProfile : Option UserProfileData)
    (inputMessage : Str) (today : Str) (aiResponse : Str) :
    Option Prescription :=
  match userProfile with
  | none => none
  | some p =>
    let symptomsMatch := matchSection labSym labDiag aiResponse
    let diagnosisMatch := matchSection labDiag labMed aiResponse
    let medicationMatch := matchSection labMed labAdv aiResponse
    let adviceMatch := matchSection labAdv labFU aiResponse
    let followUpMatch := matchSection labFU labDoc aiResponse
    some
      { patientName := p.full_name
        date := today
        symptoms := orDefault symptomsMatch inputMessage
        diagnosis := orDefault diagnosisMatch "Based on symptoms analysis".toList
        medications := orDefault medicationMatch "As discussed in consultation".toList
        advice := orDefault adviceMatch "Follow general health guidelines".toList
        followUp := orDefault followUpMatch "Consult doctor if symptoms persist".toList
        doctor := "AI-Powered by MedMind".toList }

/-- Embedding of `extractHealthPlanData` (HealthFeed.tsx), with the same
explicit ambient state (`goals` falls back to the input box text). -/
def extractHealthPlanData (userProfile : Option UserProfileData)
    (inputMessage : Str) (today : Str) (aiResponse : Str) :
    Option HealthPlan :=
  match userProfile with
  | none => none
  | some p =>
    let goalsMatch := matchSection labGoals labRecs aiResponse
    let recommendationsMatch := matchSection labRecs labExer aiResponse
    let exerciseMatch := matchSection labExer labNutr aiResponse
    let nutritionMatch := matchSection labNutr labLife aiResponse
    let lifestyleMatch := matchSection labLife labFU aiResponse
    let followUpMatch := matchSection labFU labCoach aiResponse
    some
      { patientName := p.full_name
        date := today
        goals := orDefault goalsMatch inputMessage
        recommendations :=
          orDefault recommendationsMatch
            "Personalized recommendations based on your health profile".toList
        exercises :=
          orDefault exerciseMatch "Customized exercise plan for your fitness level".toList
        nutrition :=
          orDefault nutritionMatch "Balanced nutrition plan tailored to your needs".toList
        lifestyle :=
          orDefault lifestyleMatch "Lifestyle modifications for optimal health".toList
        followUp := orDefault followUpMatch "Regular check-ins to track progress".toList
        doctor := "AI-Powered by MedMind Health Coach".toList }

/-- Claim-side section slicing, modelled from the claim wording: the text
between the label and the next recognized label (or the end of the text),
trimmed of whitespace.  Unlike the source regex, it does not stop at a
blank line. -/
def claimSectionText (label next s : Str) : Option Str :=
  match splitFirst label s with
  | none => none
  | some rest => some (trim (upTo next rest))

/-- Sample profile used by concrete witnesses and counterexamples. -/
def profA : UserProfileData :=
  { full_name := "Alex Doe".toList
    age := 30
    gender := "female".toList
    past_medical_history := none
    tobacco_use := false
    current_medications := none }

theorem begins_append_left {pat x : Str} (s : Str) (h : pat.length ≤ x.length) :
    begins pat (x ++ s) = begins pat x := by
  induction pat generalizing x with
  | nil => simp [begins]
  | cons p ps ih =>
    cases x with
    | nil => simp at h
    | cons c cs =>
      simp only [List.cons_append, begins, List.append_eq]
      rw [ih (by simpa using h)]

theorem begins_self_append (pat r : Str) : begins pat (pat ++ r) = true := by
  induction pat with
  | nil => simp [begins]
  | cons p ps ih => simp [begins, ih]

theorem begins_short_false {pat xd : Str} (s : Str) (hlt : xd.length < pat.length)
    (hxd : begins xd pat = false) : begins pat (xd ++ s) = false := by
  induction xd generalizing pat with
  | nil => simp [begins] at hxd
  | cons c cs ih =>
    cases pat with
    | nil => simp at hlt
    | cons p ps =>
      simp only [begins, Bool.and_eq_false_iff] at hxd
      simp only [List.cons_append, begins, Bool.and_eq_false_iff, List.append_eq]
      rcases hxd with h | h
      · left
        rw [beq_eq_false_iff_ne] at h ⊢
        exact fun e => h e.symm
      · right
        exact ih (by simpa using hlt) h

theorem begins_bad_false {pat bd : Str} (bad : Char → Bool)
    (hpat : ∃ c ∈ pat, bad c = true) (hb : ∀ c ∈ bd, bad c = false) :
    begins pat bd = false := by
  induction bd generalizing pat with
  | nil =>
    cases pat with
    | nil => obtain ⟨c, hc, _⟩ := hpat; simp at hc
    | cons p ps => simp [begins]
  | cons c cs ih =>
    cases pat with
    | nil => obtain ⟨x, hx, _⟩ := hpat; simp at hx
    | cons p ps =>
      simp only [begins, Bool.and_eq_false_iff]
      by_cases hpc : p = c
      · right
        subst hpc
        obtain ⟨x, hx, hxbad⟩ := hpat
        rcases List.mem_cons.mp hx with rfl | hx'
        · exact absurd hxbad (by simp [hb x (List.mem_cons_self _ _)])
        · exact ih ⟨x, hx', hxbad⟩ (fun d hd => hb d (List.mem_cons_of_mem _ hd))
      · left; simp [hpc]

theorem begins_bad_append_false {pat bd r : Str} (bad : Char → Bool) (rh : Char)
    (hpat : ∃ c ∈ pat, bad c = true) (hb : ∀ c ∈ bd, bad c = false)
    (hr : r.head? = some rh) (hrh : rh ∉ pat) :
    begins pat (bd ++ r) = false := by
  induction bd generalizing pat with
  | nil =>
    cases pat with
    | nil => obtain ⟨c, hc, _⟩ := hpat; simp at hc
    | cons p ps =>
      cases r with
      | nil => simp at hr
      | cons a as =>
        simp only [List.head?] at hr
        injection hr with hr
        subst hr
        simp only [List.nil_append, begins, Bool.and_eq_false_iff]
        left
        have : p ≠ a := fun h => hrh (h ▸ List.mem_cons_self _ _)
        simp [this]
  | cons c cs ih =>
    cases pat with
    | nil => obtain ⟨x, hx, _⟩ := hpat; simp at hx
    | cons p ps =>
      simp only [List.cons_append, begins, Bool.and_eq_false_iff]
      by_cases hpc : p = c
      · right
        subst hpc
        obtain ⟨x, hx, hxbad⟩ := hpat
        rcases List.mem_cons.mp hx with rfl | hx'
        · exact absurd hxbad (by simp [hb x (List.mem_cons_self _ _)])
        · exact ih ⟨x, hx', hxbad⟩ (fun d hd => hb d (List.mem_cons_of_mem _ hd))
            (fun h => hrh (List.mem_cons_of_mem _ h))
      · left; simp [hpc]

/-- Refutation of every occurrence of `pat` starting inside the block `x`
when `x` is followed by `s`. -/
def blockFree (pat x s : Str) : Prop :=
  ∀ i < x.length, begins pat (x.drop i ++ s) = false

/-- Decidable sufficient condition: no suffix of the concrete block `x`
can begin an occurrence of `pat`, whatever follows. -/
def noHitB (pat x : Str) : Bool :=
  (List.range x.length).all fun i =>
    if pat.length ≤ (x.drop i).length then !(begins pat (x.drop i))
    else !(begins (x.drop i) pat)

theorem blockFree_of_noHit {pat x : Str} (s : Str) (h : noHitB pat x = true) :
    blockFree pat x s := by
  intro i hi
  have hx := (List.all_eq_true.mp h) i (List.mem_range.mpr hi)
  by_cases hle : pat.length ≤ (x.drop i).length
  · rw [begins_append_left s hle]
    rw [if_pos hle] at hx
    simpa using hx
  · rw [if_neg hle] at hx
    exact begins_short_false s (by omega) (by simpa using hx)

theorem blockFree_of_bad {pat b r : Str} (bad : Char → Bool) (rh : Char)
    (hpat : ∃ c ∈ pat, bad c = true) (hb : ∀ c ∈ b, bad c = false)
    (hr : r.head? = some rh) (hrh : rh ∉ pat) :
    blockFree pat b r := by
  intro i _
  exact begins_bad_append_false bad rh hpat
    (fun c hc => hb c (List.mem_of_mem_drop hc)) hr hrh

theorem splitFirst_of_blockFree {pat x s : Str} (h : blockFree pat x s) :
    splitFirst pat (x ++ s) = splitFirst pat s := by
  induction x with
  | nil => simp
  | cons c cs ih =>
    have h0 : begins pat ((c :: cs) ++ s) = false := by
      simpa using h 0 (by simp)
    simp only [List.cons_append, List.append_eq] at h0 ⊢
    simp only [splitFirst, h0, Bool.false_eq_true, if_false]
    exact ih (fun i hi => by simpa using h (i + 1) (by simpa using hi))

theorem splitFirst_self_append (pat r : Str) :
    splitFirst pat (pat ++ r) = some r := by
  cases pat with
  | nil =>
    cases r with
    | nil => rfl
    | cons c s => simp [splitFirst, begins]
  | cons p ps =>
    have hb := begins_self_append (p :: ps) r
    simp only [List.cons_append, List.append_eq] at hb ⊢
    simp only [splitFirst, hb, if_true]
    rw [show p :: (ps ++ r) = (p :: ps) ++ r from rfl, List.drop_left]

theorem upTo_of_blockFree {pat x s : Str} (h : blockFree pat x s) :
    upTo pat (x ++ s) = x ++ upTo pat s := by
  induction x with
  | nil => simp
  | cons c cs ih =>
    have h0 : begins pat ((c :: cs) ++ s) = false := by
      simpa using h 0 (by simp)
    simp only [List.cons_append, List.append_eq] at h0 ⊢
    simp only [upTo, h0, Bool.false_eq_true, if_false, List.cons.injEq, true_and]
    exact ih (fun i hi => by simpa using h (i + 1) (by simpa using hi))

theorem upTo_self_append (pat r : Str) (hne : pat ≠ []) :
    upTo pat (pat ++ r) = [] := by
  cases pat with
  | nil => exact absurd rfl hne
  | cons p ps =>
    have hb := begins_self_append (p :: ps) r
    simp only [List.cons_append] at hb ⊢
    simp [upTo, hb]

theorem dropWhile_append_exists {p : Char → Bool} {b : Str} (r : Str)
    (h : ∃ c ∈ b, p c = false) :
    (b ++ r).dropWhile p = b.dropWhile p ++ r := by
  induction b with
  | nil => obtain ⟨c, hc, _⟩ := h; simp at hc
  | cons c cs ih =>
    by_cases hc : p c
    · obtain ⟨x, hx, hxp⟩ := h
      rcases List.mem_cons.mp hx with rfl | hx'
      · exact absurd hc (by simp [hxp])
      · simp only [List.cons_append, List.dropWhile_cons, hc, if_true]
        exact ih ⟨x, hx', hxp⟩
    · simp [List.dropWhile_cons, hc]

theorem dropWhile_append_all {p : Char → Bool} {a : Str} (r : Str)
    (h : ∀ c ∈ a, p c = true) :
    (a ++ r).dropWhile p = r.dropWhile p := by
  induction a with
  | nil => simp
  | cons c cs ih =>
    simp only [List.cons_append, List.dropWhile_cons, h c (List.mem_cons_self _ _), if_true]
    exact ih (fun x hx => h x (List.mem_cons_of_mem _ hx))

theorem mem_dropWhile {p : Char → Bool} {c : Char} {l : Str}
    (h : c ∈ l.dropWhile p) : c ∈ l :=
  (List.dropWhile_sublist p).mem h

theorem dropWhile_idem (p : Char → Bool) (l : Str) :
    (l.dropWhile p).dropWhile p = l.dropWhile p := by
  induction l with
  | nil => rfl
  | cons c cs ih =>
    by_cases hc : p c
    · simp [List.dropWhile_cons, hc, ih]
    · simp [List.dropWhile_cons, hc]

theorem captureUntil_cons_of_false {stop : Str} {c : Char} {s : Str}
    (h1 : begins ['\n', '\n'] (c :: s) = false)
    (h2 : begins stop (c :: s) = false) :
    captureUntil stop (c :: s) = c :: captureUntil stop s := by
  simp [captureUntil, h1, h2]

theorem begins_nl2_cons_false {c : Char} (s : Str) (h : c ≠ '\n') :
    begins ['\n', '\n'] (c :: s) = false := by
  have hne : ('\n' == c) = false := by
    rw [beq_eq_false_iff_ne]
    exact fun e => h e.symm
  simp [begins, hne]

theorem captureUntil_append_blank {stop b : Str} (bad : Char → Bool) (r : Str)
    (hb : ∀ c ∈ b, c ≠ '\n' ∧ bad c = false)
    (hstop : ∃ c ∈ stop, bad c = true) (hnl : '\n' ∉ stop) :
    captureUntil stop (b ++ '\n' :: '\n' :: r) = b := by
  induction b with
  | nil => simp [captureUntil, begins]
  | cons c cs ih =>
    have hc := hb c (List.mem_cons_self _ _)
    have h2 : begins stop ((c :: cs) ++ '\n' :: '\n' :: r) = false :=
      begins_bad_append_false bad '\n' hstop
        (fun x hx => (hb x hx).2) rfl hnl
    rw [List.cons_append] at h2 ⊢
    rw [captureUntil_cons_of_false (begins_nl2_cons_false _ hc.1) h2]
    rw [ih (fun x hx => hb x (List.mem_cons_of_mem _ hx))]

theorem captureUntil_all_bad {stop b : Str} (bad : Char → Bool)
    (hb : ∀ c ∈ b, c ≠ '\n' ∧ bad c = false)
    (hstop : ∃ c ∈ stop, bad c = true) :
    captureUntil stop b = b := by
  induction b with
  | nil => rfl
  | cons c cs ih =>
    have hc := hb c (List.mem_cons_self _ _)
    have h2 : begins stop (c :: cs) = false :=
      begins_bad_false bad hstop (fun x hx => (hb x hx).2)
    rw [captureUntil_cons_of_false (begins_nl2_cons_false _ hc.1) h2]
    rw [ih (fun x hx => hb x (List.mem_cons_of_mem _ hx))]

theorem trimR_append_ws {w : Str} (s : Str) (h : ∀ c ∈ w, isWsC c = true) :
    trimR (s ++ w) = trimR s := by
  unfold trimR
  rw [List.reverse_append]
  rw [dropWhile_append_all _ (fun c hc => h c (List.mem_reverse.mp hc))]

theorem trim_cons_ws {c : Char} (s : Str) (h : isWsC c = true) :
    trim (c :: s) = trim s := by
  unfold trim
  rw [List.dropWhile_cons, if_pos h]

theorem trim_append_ws {w : Str} (s : Str) (h : ∀ c ∈ w, isWsC c = true) :
    trim (s ++ w) = trim s := by
  unfold trim
  by_cases hex : ∃ c ∈ s, isWsC c = false
  · rw [dropWhile_append_exists _ hex, trimR_append_ws _ h]
  · push_neg at hex
    have hall : ∀ c ∈ s, isWsC c = true := fun c hc => by
      have := hex c hc
      simpa using this
    rw [dropWhile_append_all _ hall]
    rw [List.dropWhile_eq_nil_iff.mpr (fun c hc => hall c hc),
      List.dropWhile_eq_nil_iff.mpr (fun c hc => h c hc)]

theorem trim_dropWhile_ws (s : Str) :
    trim (s.dropWhile isWsC) = trim s := by
  unfold trim
  rw [dropWhile_idem]

theorem mem_dropWhile_of_not {p : Char → Bool} {x : Char} {l : Str}
    (hx : x ∈ l) (hpx : p x = false) : x ∈ l.dropWhile p := by
  induction l with
  | nil => simp at hx
  | cons c cs ih =>
    by_cases hc : p c
    · rw [List.dropWhile_cons, if_pos hc]
      rcases List.mem_cons.mp hx with rfl | hx'
      · exact absurd hc (by simp [hpx])
      · exact ih hx'
    · rw [List.dropWhile_cons, if_neg hc]
      exact hx

theorem trim_ne_nil {s : Str} (h : ∃ x ∈ s, isWsC x = false) :
    trim s ≠ [] := by
  obtain ⟨x, hx, hxw⟩ := h
  intro hcontra
  unfold trim trimR at hcontra
  have h1 : x ∈ s.dropWhile isWsC := mem_dropWhile_of_not hx hxw
  have h2 : (s.dropWhile isWsC).reverse.dropWhile isWsC = [] := by
    have := congrArg List.reverse hcontra
    simpa using this
  have h3 := List.dropWhile_eq_nil_iff.mp h2 x (List.mem_reverse.mpr h1)
  simp [hxw] at h3

/-- Section bodies considered by the amended extraction claims: no
newline, no colon, and at least one non-whitespace character. -/
def goodBodyB (b : Str) : Bool :=
  b.all (fun c => !(c == '\n') && !(c == ':')) && b.any (fun c => !isWsC c)

theorem goodBody_chars {b : Str} (h : goodBodyB b = true) :
    ∀ c ∈ b, c ≠ '\n' ∧ (c == ':') = false := by
  intro c hc
  have h1 := (List.all_eq_true.mp (Bool.and_elim_left h)) c hc
  constructor
  · intro e; subst e; simp at h1
  · rcases Bool.and_eq_true_iff.mp h1 with ⟨_, h3⟩
    simpa using h3

theorem goodBody_nonws {b : Str} (h : goodBodyB b = true) :
    ∃ x ∈ b, isWsC x = false := by
  obtain ⟨x, hx, hxw⟩ := List.any_eq_true.mp (Bool.and_elim_right h)
  exact ⟨x, hx, by simpa using hxw⟩

/-- Section extraction for a middle section: the suffix after the label is
a newline, the body, then a blank line and the remainder. -/
theorem matchSection_mid {lab stop s b : Str} (r : Str)
    (hsplit : splitFirst lab s = some ('\n' :: (b ++ '\n' :: '\n' :: r)))
    (hb : goodBodyB b = true)
    (hstopc : ':' ∈ stop) (hstopn : '\n' ∉ stop) :
    matchSection lab stop s = some (trim b) := by
  unfold matchSection
  rw [hsplit]
  show some (trim (captureUntil stop
    (List.dropWhile isWsC ('\n' :: (b ++ '\n' :: '\n' :: r))))) = some (trim b)
  have hws : isWsC '\n' = true := by decide
  rw [List.dropWhile_cons, if_pos hws]
  rw [dropWhile_append_exists _ (goodBody_nonws hb)]
  rw [captureUntil_append_blank (fun c => c == ':') r
    (fun c hc => goodBody_chars hb c (mem_dropWhile hc))
    ⟨':', hstopc, by simp⟩ hstopn]
  rw [trim_dropWhile_ws]

/-- Section extraction for the final section: the suffix after the label is
a newline then the body, running to the end of the text. -/
theorem matchSection_last {lab stop s b : Str}
    (hsplit : splitFirst lab s = some ('\n' :: b))
    (hb : goodBodyB b = true)
    (hstopc : ':' ∈ stop) :
    matchSection lab stop s = some (trim b) := by
  unfold matchSection
  rw [hsplit]
  show some (trim (captureUntil stop (List.dropWhile isWsC ('\n' :: b)))) = some (trim b)
  have hws : isWsC '\n' = true := by decide
  rw [List.dropWhile_cons, if_pos hws]
  rw [captureUntil_all_bad (fun c => c == ':')
    (fun c hc => goodBody_chars hb c (mem_dropWhile hc))
    ⟨':', hstopc, by simp⟩]
  rw [trim_dropWhile_ws]

theorem splitFirst_skip_lead (pat lead rest : Str) (h : noHitB pat lead = true) :
    splitFirst pat (lead ++ rest) = splitFirst pat rest :=
  splitFirst_of_blockFree (blockFree_of_noHit rest h)

theorem splitFirst_skip_body (pat body rest : Str)
    (hpat : ':' ∈ pat) (hb : goodBodyB body = true)
    (hr : rest.head? = some '\n') (hnl : '\n' ∉ pat) :
    splitFirst pat (body ++ rest) = splitFirst pat rest :=
  splitFirst_of_blockFree (blockFree_of_bad (fun ch => ch == ':') '\n'
    ⟨':', hpat, by simp⟩ (fun ch hch => (goodBody_chars hb ch hch).2) hr hnl)

theorem upTo_skip_lead (pat lead rest : Str) (h : noHitB pat lead = true) :
    upTo pat (lead ++ rest) = lead ++ upTo pat rest :=
  upTo_of_blockFree (blockFree_of_noHit rest h)

theorem upTo_skip_body (pat body rest : Str)
    (hpat : ':' ∈ pat) (hb : goodBodyB body = true)
    (hr : rest.head? = some '\n') (hnl : '\n' ∉ pat) :
    upTo pat (body ++ rest) = body ++ upTo pat rest :=
  upTo_of_blockFree (blockFree_of_bad (fun ch => ch == ':') '\n'
    ⟨':', hpat, by simp⟩ (fun ch hch => (goodBody_chars hb ch hch).2) hr hnl)

/-- Canonical well-formed five-section prescription response, tail from the
`Follow-Up:` label on. -/
def tail5 (e : Str) : Str := labFU ++ '\n' :: e

/-- Tail of the canonical response from the `General Advice:` label on. -/
def tail4 (d e : Str) : Str := labAdv ++ '\n' :: (d ++ '\n' :: '\n' :: tail5 e)

/-- Tail of the canonical response from `Recommended Medications:` on. -/
def tail3 (c d e : Str) : Str := labMed ++ '\n' :: (c ++ '\n' :: '\n' :: tail4 d e)

/-- Tail of the canonical response from `Diagnosis Summary:` on. -/
def tail2 (b c d e : Str) : Str := labDiag ++ '\n' :: (b ++ '\n' :: '\n' :: tail3 c d e)

/-- Canonical well-formed response carrying all five medical-record labels,
one section body per label. -/
def mkPrescriptionResponse (a b c d e : Str) : Str :=
  labSym ++ '\n' :: (a ++ '\n' :: '\n' :: tail2 b c d e)

theorem split_sym (a b c d e : Str) :
    splitFirst labSym (mkPrescriptionResponse a b c d e)
      = some ('\n' :: (a ++ '\n' :: '\n' :: tail2 b c d e)) :=
  splitFirst_self_append labSym _

theorem split_diag (a b c d e : Str) (ha : goodBodyB a = true) :
    splitFirst labDiag (mkPrescriptionResponse a b c d e)
      = some ('\n' :: (b ++ '\n' :: '\n' :: tail3 c d e)) := by
  have e1 : splitFirst labDiag (mkPrescriptionResponse a b c d e)
      = splitFirst labDiag ('\n' :: (a ++ '\n' :: '\n' :: tail2 b c d e)) :=
    splitFirst_skip_lead labDiag labSym _ (by decide)
  have e2 : splitFirst labDiag ('\n' :: (a ++ '\n' :: '\n' :: tail2 b c d e))
      = splitFirst labDiag (a ++ '\n' :: '\n' :: tail2 b c d e) :=
    splitFirst_skip_lead labDiag ['\n'] _ (by decide)
  have e3 : splitFirst labDiag (a ++ '\n' :: '\n' :: tail2 b c d e)
      = splitFirst labDiag ('\n' :: '\n' :: tail2 b c d e) :=
    splitFirst_skip_body labDiag a ('\n' :: '\n' :: tail2 b c d e)
      (by decide) ha rfl (by decide)
  have e4 : splitFirst labDiag ('\n' :: '\n' :: tail2 b c d e)
      = splitFirst labDiag (tail2 b c d e) :=
    splitFirst_skip_lead labDiag ['\n', '\n'] _ (by decide)
  have e5 : splitFirst labDiag (tail2 b c d e)
      = some ('\n' :: (b ++ '\n' :: '\n' :: tail3 c d e)) :=
    splitFirst_self_append labDiag _
  exact e1.trans (e2.trans (e3.trans (e4.trans e5)))

theorem split_med (a b c d e : Str)
    (ha : goodBodyB a = true) (hb : goodBodyB b = true) :
    splitFirst labMed (mkPrescriptionResponse a b c d e)
      = some ('\n' :: (c ++ '\n' :: '\n' :: tail4 d e)) := by
  have e1 : splitFirst labMed (mkPrescriptionResponse a b c d e)
      = splitFirst labMed ('\n' :: (a ++ '\n' :: '\n' :: tail2 b c d e)) :=
    splitFirst_skip_lead labMed labSym _ (by decide)
  have e2 : splitFirst labMed ('\n' :: (a ++ '\n' :: '\n' :: tail2 b c d e))
      = splitFirst labMed (a ++ '\n' :: '\n' :: tail2 b c d e) :=
    splitFirst_skip_lead labMed ['\n'] _ (by decide)
  have e3 : splitFirst labMed (a ++ '\n' :: '\n' :: tail2 b c d e)
      = splitFirst labMed ('\n' :: '\n' :: tail2 b c d e) :=
    splitFirst_skip_body labMed a ('\n' :: '\n' :: tail2 b c d e)
      (by decide) ha rfl (by decide)
  have e4 : splitFirst labMed ('\n' :: '\n' :: tail2 b c d e)
      = splitFirst labMed (tail2 b c d e) :=
    splitFirst_skip_lead labMed ['\n', '\n'] _ (by decide)
  have e5 : splitFirst labMed (tail2 b c d e)
      = splitFirst labMed ('\n' :: (b ++ '\n' :: '\n' :: tail3 c d e)) :=
    splitFirst_skip_lead labMed labDiag _ (by decide)
  have e6 : splitFirst labMed ('\n' :: (b ++ '\n' :: '\n' :: tail3 c d e))
      = splitFirst labMed (b ++ '\n' :: '\n' :: tail3 c d e) :=
    splitFirst_skip_lead labMed ['\n'] _ (by decide)
  have e7 : splitFirst labMed (b ++ '\n' :: '\n' :: tail3 c d e)
      = splitFirst labMed ('\n' :: '\n' :: tail3 c d e) :=
    splitFirst_skip_body labMed b ('\n' :: '\n' :: tail3 c d e)
      (by decide) hb rfl (by decide)
  have e8 : splitFirst labMed ('\n' :: '\n' :: tail3 c d e)
      = splitFirst labMed (tail3 c d e) :=
    splitFirst_skip_lead labMed ['\n', '\n'] _ (by decide)
  have e9 : splitFirst labMed (tail3 c d e)
      = some ('\n' :: (c ++ '\n' :: '\n' :: tail4 d e)) :=
    splitFirst_self_append labMed _
  exact e1.trans (e2.trans (e3.trans (e4.trans (e5.trans
    (e6.trans (e7.trans (e8.trans e9)))))))

theorem split_adv (a b c d e : Str)
    (ha : goodBodyB a = true) (hb : goodBodyB b = true) (hc : goodBodyB c = true) :
    splitFirst labAdv (mkPrescriptionResponse a b c d e)
      = some ('\n' :: (d ++ '\n' :: '\n' :: tail5 e)) := by
  have e1 : splitFirst labAdv (mkPrescriptionResponse a b c d e)
      = splitFirst labAdv ('\n' :: (a ++ '\n' :: '\n' :: tail2 b c d e)) :=
    splitFirst_skip_lead labAdv labSym _ (by decide)
  have e2 : splitFirst labAdv ('\n' :: (a ++ '\n' :: '\n' :: tail2 b c d e))
      = splitFirst labAdv (a ++ '\n' :: '\n' :: tail2 b c d e) :=
    splitFirst_skip_lead labAdv ['\n'] _ (by decide)
  have e3 : splitFirst labAdv (a ++ '\n' :: '\n' :: tail2 b c d e)
      = splitFirst labAdv ('\n' :: '\n' :: tail2 b c d e) :=
    splitFirst_skip_body labAdv a ('\n' :: '\n' :: tail2 b c d e)
      (by decide) ha rfl (by decide)
  have e4 : splitFirst labAdv ('\n' :: '\n' :: tail2 b c d e)
      = splitFirst labAdv (tail2 b c d e) :=
    splitFirst_skip_lead labAdv ['\n', '\n'] _ (by decide)
  have e5 : splitFirst labAdv (tail2 b c d e)
      = splitFirst labAdv ('\n' :: (b ++ '\n' :: '\n' :: tail3 c d e)) :=
    splitFirst_skip_lead labAdv labDiag _ (by decide)
  have e6 : splitFirst labAdv ('\n' :: (b ++ '\n' :: '\n' :: tail3 c d e))
      = splitFirst labAdv (b ++ '\n' :: '\n' :: tail3 c d e) :=
    splitFirst_skip_lead labAdv ['\n'] _ (by decide)
  have e7 : splitFirst labAdv (b ++ '\n' :: '\n' :: tail3 c d e)
      = splitFirst labAdv ('\n' :: '\n' :: tail3 c d e) :=
    splitFirst_skip_body labAdv b ('\n' :: '\n' :: tail3 c d e)
      (by decide) hb rfl (by decide)
  have e8 : splitFirst labAdv ('\n' :: '\n' :: tail3 c d e)
      = splitFirst labAdv (tail3 c d e) :=
    splitFirst_skip_lead labAdv ['\n', '\n'] _ (by decide)
  have e9 : splitFirst labAdv (tail3 c d e)
      = splitFirst labAdv ('\n' :: (c ++ '\n' :: '\n' :: tail4 d e)) :=
    splitFirst_skip_lead labAdv labMed _ (by decide)
  have e10 : splitFirst labAdv ('\n' :: (c ++ '\n' :: '\n' :: tail4 d e))
      = splitFirst labAdv (c ++ '\n' :: '\n' :: tail4 d e) :=
    splitFirst_skip_lead labAdv ['\n'] _ (by decide)
  have e11 : splitFirst labAdv (c ++ '\n' :: '\n' :: tail4 d e)
      = splitFirst labAdv ('\n' :: '\n' :: tail4 d e) :=
    splitFirst_skip_body labAdv c ('\n' :: '\n' :: tail4 d e)
      (by decide) hc rfl (by decide)
  have e12 : splitFirst labAdv ('\n' :: '\n' :: tail4 d e)
      = splitFirst labAdv (tail4 d e) :=
    splitFirst_skip_lead labAdv ['\n', '\n'] _ (by decide)
  have e13 : splitFirst labAdv (tail4 d e)
      = some ('\n' :: (d ++ '\n' :: '\n' :: tail5 e)) :=
    splitFirst_self_append labAdv _
  exact e1.trans (e2.trans (e3.trans (e4.trans (e5.trans (e6.trans
    (e7.trans (e8.trans (e9.trans (e10.trans (e11.trans
    (e12.trans e13)))))))))))

theorem split_fu (a b c d e : Str)
    (ha : goodBodyB a = true) (hb : goodBodyB b = true) (hc : goodBodyB c = true)
    (hd : goodBodyB d = true) :
    splitFirst labFU (mkPrescriptionResponse a b c d e)
      = some ('\n' :: e) := by
  have e1 : splitFirst labFU (mkPrescriptionResponse a b c d e)
      = splitFirst labFU ('\n' :: (a ++ '\n' :: '\n' :: tail2 b c d e)) :=
    splitFirst_skip_lead labFU labSym _ (by decide)
  have e2 : splitFirst labFU ('\n' :: (a ++ '\n' :: '\n' :: tail2 b c d e))
      = splitFirst labFU (a ++ '\n' :: '\n' :: tail2 b c d e) :=
    splitFirst_skip_lead labFU ['\n'] _ (by decide)
  have e3 : splitFirst labFU (a ++ '\n' :: '\n' :: tail2 b c d e)
      = splitFirst labFU ('\n' :: '\n' :: tail2 b c d e) :=
    splitFirst_skip_body labFU a ('\n' :: '\n' :: tail2 b c d e)
      (by decide) ha rfl (by decide)
  have e4 : splitFirst labFU ('\n' :: '\n' :: tail2 b c d e)
      = splitFirst labFU (tail2 b c d e) :=
    splitFirst_skip_lead labFU ['\n', '\n'] _ (by decide)
  have e5 : splitFirst labFU (tail2 b c d e)
      = splitFirst labFU ('\n' :: (b ++ '\n' :: '\n' :: tail3 c d e)) :=
    splitFirst_skip_lead labFU labDiag _ (by decide)
  have e6 : splitFirst labFU ('\n' :: (b ++ '\n' :: '\n' :: tail3 c d e))
      = splitFirst labFU (b ++ '\n' :: '\n' :: tail3 c d e) :=
    splitFirst_skip_lead labFU ['\n'] _ (by decide)
  have e7 : splitFirst labFU (b ++ '\n' :: '\n' :: tail3 c d e)
      = splitFirst labFU ('\n' :: '\n' :: tail3 c d e) :=
    splitFirst_skip_body labFU b ('\n' :: '\n' :: tail3 c d e)
      (by decide) hb rfl (by decide)
  have e8 : splitFirst labFU ('\n' :: '\n' :: tail3 c d e)
      = splitFirst labFU (tail3 c d e) :=
    splitFirst_skip_lead labFU ['\n', '\n'] _ (by decide)
  have e9 : splitFirst labFU (tail3 c d e)
      = splitFirst labFU ('\n' :: (c ++ '\n' :: '\n' :: tail4 d e)) :=
    splitFirst_skip_lead labFU labMed _ (by decide)
  have e10 : splitFirst labFU ('\n' :: (c ++ '\n' :: '\n' :: tail4 d e))
      = splitFirst labFU (c ++ '\n' :: '\n' :: tail4 d e) :=
    splitFirst_skip_lead labFU ['\n'] _ (by decide)
  have e11 : splitFirst labFU (c ++ '\n' :: '\n' :: tail4 d e)
      = splitFirst labFU ('\n' :: '\n' :: tail4 d e) :=
    splitFirst_skip_body labFU c ('\n' :: '\n' :: tail4 d e)
      (by decide) hc rfl (by decide)
  have e12 : splitFirst labFU ('\n' :: '\n' :: tail4 d e)
      = splitFirst labFU (tail4 d e) :=
    splitFirst_skip_lead labFU ['\n', '\n'] _ (by decide)
  have e13 : splitFirst labFU (tail4 d e)
      = splitFirst labFU ('\n' :: (d ++ '\n' :: '\n' :: tail5 e)) :=
    splitFirst_skip_lead labFU labAdv _ (by decide)
  have e14 : splitFirst labFU ('\n' :: (d ++ '\n' :: '\n' :: tail5 e))
      = splitFirst labFU (d ++ '\n' :: '\n' :: tail5 e) :=
    splitFirst_skip_lead labFU ['\n'] _ (by decide)
  have e15 : splitFirst labFU (d ++ '\n' :: '\n' :: tail5 e)
      = splitFirst labFU ('\n' :: '\n' :: tail5 e) :=
    splitFirst_skip_body labFU d ('\n' :: '\n' :: tail5 e)
      (by decide) hd rfl (by decide)
  have e16 : splitFirst labFU ('\n' :: '\n' :: tail5 e)
      = splitFirst labFU (tail5 e) :=
    splitFirst_skip_lead labFU ['\n', '\n'] _ (by decide)
  have e17 : splitFirst labFU (tail5 e) = some ('\n' :: e) :=
    splitFirst_self_append labFU _
  exact e1.trans (e2.trans (e3.trans (e4.trans (e5.trans (e6.trans
    (e7.trans (e8.trans (e9.trans (e10.trans (e11.trans (e12.trans
    (e13.trans (e14.trans (e15.trans (e16.trans e17)))))))))))))))

theorem orDefault_some_ne (t d : Str) (h : t ≠ []) : orDefault (some t) d = t := by
  cases t with
  | nil => exact absurd rfl h
  | cons x xs => rfl

theorem sec_sym (a b c d e : Str) (ha : goodBodyB a = true) :
    matchSection labSym labDiag (mkPrescriptionResponse a b c d e) = some (trim a) :=
  matchSection_mid (tail2 b c d e) (split_sym a b c d e) ha (by decide) (by decide)

theorem sec_diag (a b c d e : Str)
    (ha : goodBodyB a = true) (hbb : goodBodyB b = true) :
    matchSection labDiag labMed (mkPrescriptionResponse a b c d e) = some (trim b) :=
  matchSection_mid (tail3 c d e) (split_diag a b c d e ha) hbb (by decide) (by decide)

theorem sec_med (a b c d e : Str)
    (ha : goodBodyB a = true) (hbb : goodBodyB b = true) (hcc : goodBodyB c = true) :
    matchSection labMed labAdv (mkPrescriptionResponse a b c d e) = some (trim c) :=
  matchSection_mid (tail4 d e) (split_med a b c d e ha hbb) hcc (by decide) (by decide)

theorem sec_adv (a b c d e : Str)
    (ha : goodBodyB a = true) (hbb : goodBodyB b = true) (hcc : goodBodyB c = true)
    (hdd : goodBodyB d = true) :
    matchSection labAdv labFU (mkPrescriptionResponse a b c d e) = some (trim d) :=
  matchSection_mid (tail5 e) (split_adv a b c d e ha hbb hcc) hdd (by decide) (by decide)

theorem sec_fu (a b c d e : Str)
    (ha : goodBodyB a = true) (hbb : goodBodyB b = true) (hcc : goodBodyB c = true)
    (hdd : goodBodyB d = true) (hee : goodBodyB e = true) :
    matchSection labFU labDoc (mkPrescriptionResponse a b c d e) = some (trim e) :=
  matchSection_last (split_fu a b c d e ha hbb hcc hdd) hee (by decide)

theorem claimSection_sym (a b c d e : Str) (ha : goodBodyB a = true) :
    claimSectionText labSym labDiag (mkPrescriptionResponse a b c d e)
      = some (trim a) := by
  unfold claimSectionText
  rw [split_sym a b c d e]
  show some (trim (upTo labDiag ('\n' :: (a ++ '\n' :: '\n' :: tail2 b c d e))))
    = some (trim a)
  have u1 : upTo labDiag ('\n' :: (a ++ '\n' :: '\n' :: tail2 b c d e))
      = ['\n'] ++ upTo labDiag (a ++ '\n' :: '\n' :: tail2 b c d e) :=
    upTo_skip_lead labDiag ['\n'] _ (by decide)
  have u2 : upTo labDiag (a ++ '\n' :: '\n' :: tail2 b c d e)
      = a ++ upTo labDiag ('\n' :: '\n' :: tail2 b c d e) :=
    upTo_skip_body labDiag a ('\n' :: '\n' :: tail2 b c d e)
      (by decide) ha rfl (by decide)
  have u3 : upTo labDiag ('\n' :: '\n' :: tail2 b c d e)
      = ['\n', '\n'] ++ upTo labDiag (tail2 b c d e) :=
    upTo_skip_lead labDiag ['\n', '\n'] _ (by decide)
  have u4 : upTo labDiag (tail2 b c d e) = [] :=
    upTo_self_append labDiag _ (by decide)
  rw [u1, u2, u3, u4]
  rw [List.append_nil]
  rw [show (['\n'] ++ (a ++ ['\n', '\n']) : Str) = '\n' :: (a ++ ['\n', '\n']) from rfl]
  rw [trim_cons_ws _ (by decide)]
  rw [trim_append_ws _ (by decide)]

/-- C1 counterexample response: all five labels occur, and the symptoms
section contains a blank line. -/
def cexC1 : Str :=
  "Reported Symptoms:\nfever\n\ncough\n\nDiagnosis Summary:\nflu\n\nRecommended Medications:\nrest\n\nGeneral Advice:\nfluids\n\nFollow-Up:\nnone".toList

/-- C1 counterexample: on a response containing all five medical-record
labels whose symptoms section holds a blank line, the extractor returns
"fever" while the text between `Reported Symptoms:` and
`Diagnosis Summary:` trims to "fever\n\ncough"; the claim's equality of
the two fails on this input. -/
theorem C1_blank_line_counterexample :
    (extractPrescriptionData (some profA) "input".toList "1/1/2025".toList cexC1).map
        (fun r => r.symptoms) = some "fever".toList
    ∧ claimSectionText labSym labDiag cexC1 = some "fever\n\ncough".toList
    ∧ ("fever".toList : Str) ≠ "fever\n\ncough".toList := by
  refine ⟨by decide, by decide, by decide⟩

/-- C1 (amended): for every well-formed response carrying all five
medical-record labels whose section bodies lie on single lines (no blank
line inside a section, no embedded colon) and are non-blank, the extractor
returns the record whose five fields are exactly the per-section texts,
trimmed; for such responses this agrees with the text between each label
and the next recognized label, trimmed, as witnessed for the symptoms
field.  (The source regexes additionally stop a capture at the first blank
line, which is what the counterexample exhibits and what forces the
single-line restriction.) -/
theorem C1_section_extraction (a b c d e : Str)
    (ha : goodBodyB a = true) (hbb : goodBodyB b = true) (hcc : goodBodyB c = true)
    (hdd : goodBodyB d = true) (hee : goodBodyB e = true)
    (p : UserProfileData) (input today : Str) :
    extractPrescriptionData (some p) input today (mkPrescriptionResponse a b c d e)
      = some { patientName := p.full_name, date := today,
               symptoms := trim a, diagnosis := trim b, medications := trim c,
               advice := trim d, followUp := trim e,
               doctor := "AI-Powered by MedMind".toList }
    ∧ claimSectionText labSym labDiag (mkPrescriptionResponse a b c d e)
      = some (trim a) := by
  constructor
  · simp only [extractPrescriptionData]
    rw [sec_sym a b c d e ha, sec_diag a b c d e ha hbb, sec_med a b c d e ha hbb hcc,
      sec_adv a b c d e ha hbb hcc hdd, sec_fu a b c d e ha hbb hcc hdd hee]
    rw [orDefault_some_ne _ _ (trim_ne_nil (goodBody_nonws ha)),
      orDefault_some_ne _ _ (trim_ne_nil (goodBody_nonws hbb)),
      orDefault_some_ne _ _ (trim_ne_nil (goodBody_nonws hcc)),
      orDefault_some_ne _ _ (trim_ne_nil (goodBody_nonws hdd)),
      orDefault_some_ne _ _ (trim_ne_nil (goodBody_nonws hee))]
  · exact claimSection_sym a b c d e ha

/-- C1 witness: concrete instantiation of the amended extraction theorem. -/
theorem C1_section_extraction_witness :
    extractPrescriptionData (some profA) "input".toList "1/1/2025".toList
        (mkPrescriptionResponse "fever and chills".toList "likely viral infection".toList
          "paracetamol 500mg".toList "rest and fluids".toList "review in 3 days".toList)
      = some { patientName := profA.full_name, date := "1/1/2025".toList,
               symptoms := trim "fever and chills".toList,
               diagnosis := trim "likely viral infection".toList,
               medications := trim "paracetamol 500mg".toList,
               advice := trim "rest and fluids".toList,
               followUp := trim "review in 3 days".toList,
               doctor := "AI-Powered by MedMind".toList }
    ∧ claimSectionText labSym labDiag
        (mkPrescriptionResponse "fever and chills".toList "likely viral infection".toList
          "paracetamol 500mg".toList "rest and fluids".toList "review in 3 days".toList)
      = some (trim "fever and chills".toList) :=
  C1_section_extraction "fever and chills".toList "likely viral infection".toList
    "paracetamol 500mg".toList "rest and fluids".toList "review in 3 days".toList
    (by decide) (by decide) (by decide) (by decide) (by decide)
    profA "input".toList "1/1/2025".toList

/-- Record produced when no medical-record section matches: every field is
the documented default, with the symptoms fallback taken from the user
input box. -/
def prescriptionFallback (p : UserProfileData) (input today : Str) : Prescription :=
  { patientName := p.full_name, date := today, symptoms := input,
    diagnosis := "Based on symptoms analysis".toList
    medications := "As discussed in consultation".toList
    advice := "Follow general health guidelines".toList
    followUp := "Consult doctor if symptoms persist".toList
    doctor := "AI-Powered by MedMind".toList }

/-- Record produced when no wellness-plan section matches. -/
def healthPlanFallback (p : UserProfileData) (input today : Str) : HealthPlan :=
  { patientName := p.full_name, date := today, goals := input,
    recommendations := "Personalized recommendations based on your health profile".toList
    exercises := "Customized exercise plan for your fitness level".toList
    nutrition := "Balanced nutrition plan tailored to your needs".toList
    lifestyle := "Lifestyle modifications for optimal health".toList
    followUp := "Regular check-ins to track progress".toList
    doctor := "AI-Powered by MedMind Health Coach".toList }

/-- Zero recognized medical-record labels in the response. -/
abbrev noRecordLabels (resp : Str) : Prop :=
  splitFirst labSym resp = none ∧ splitFirst labDiag resp = none ∧
  splitFirst labMed resp = none ∧ splitFirst labAdv resp = none ∧
  splitFirst labFU resp = none

/-- Zero recognized wellness-plan labels in the response. -/
abbrev noPlanLabels (resp : Str) : Prop :=
  splitFirst labGoals resp = none ∧ splitFirst labRecs resp = none ∧
  splitFirst labExer resp = none ∧ splitFirst labNutr resp = none ∧
  splitFirst labLife resp = none ∧ splitFirst labFU resp = none

/-- Field discipline of the extractors: the value is the non-empty trimmed
extracted text of its section, or else the fixed default. -/
def fieldFrom (v : Option Str) (dflt val : Str) : Prop :=
  (∃ t, v = some t ∧ t ≠ [] ∧ val = t) ∨ val = dflt

theorem orDefault_fieldFrom (v : Option Str) (d : Str) :
    fieldFrom v d (orDefault v d) := by
  cases v with
  | none => exact Or.inr rfl
  | some t =>
    cases t with
    | nil => exact Or.inr rfl
    | cons x xs => exact Or.inl ⟨x :: xs, rfl, by simp, rfl⟩

theorem matchSection_none_of_split_none {lab resp : Str} (stop : Str)
    (h : splitFirst lab resp = none) : matchSection lab stop resp = none := by
  unfold matchSection
  rw [h]

/-- C2: the extractors given a present profile always return a record, every
field of which is either the extracted labeled text or the documented fixed
default; a response with zero recognized labels yields the full fallback
record derived from the original user input. -/
theorem C2_no_missing_fields (p : UserProfileData) (input today resp : Str) :
    (∃ r, extractPrescriptionData (some p) input today resp = some r
      ∧ r.patientName = p.full_name ∧ r.date = today
      ∧ fieldFrom (matchSection labSym labDiag resp) input r.symptoms
      ∧ fieldFrom (matchSection labDiag labMed resp)
          "Based on symptoms analysis".toList r.diagnosis
      ∧ fieldFrom (matchSection labMed labAdv resp)
          "As discussed in consultation".toList r.medications
      ∧ fieldFrom (matchSection labAdv labFU resp)
          "Follow general health guidelines".toList r.advice
      ∧ fieldFrom (matchSection labFU labDoc resp)
          "Consult doctor if symptoms persist".toList r.followUp)
    ∧ (noRecordLabels resp →
        extractPrescriptionData (some p) input today resp
          = some (prescriptionFallback p input today))
    ∧ (∃ h, extractHealthPlanData (some p) input today resp = some h
      ∧ h.patientName = p.full_name ∧ h.date = today
      ∧ fieldFrom (matchSection labGoals labRecs resp) input h.goals
      ∧ fieldFrom (matchSection labRecs labExer resp)
          "Personalized recommendations based on your health profile".toList
          h.recommendations
      ∧ fieldFrom (matchSection labExer labNutr resp)
          "Customized exercise plan for your fitness level".toList h.exercises
      ∧ fieldFrom (matchSection labNutr labLife resp)
          "Balanced nutrition plan tailored to your needs".toList h.nutrition
      ∧ fieldFrom (matchSection labLife labFU resp)
          "Lifestyle modifications for optimal health".toList h.lifestyle
      ∧ fieldFrom (matchSection labFU labCoach resp)
          "Regular check-ins to track progress".toList h.followUp)
    ∧ (noPlanLabels resp →
        extractHealthPlanData (some p) input today resp
          = some (healthPlanFallback p input today)) := by
  refine ⟨⟨_, rfl, rfl, rfl, ?_, ?_, ?_, ?_, ?_⟩, ?_, ⟨_, rfl, rfl, rfl,
    ?_, ?_, ?_, ?_, ?_, ?_⟩, ?_⟩
  · exact orDefault_fieldFrom _ _
  · exact orDefault_fieldFrom _ _
  · exact orDefault_fieldFrom _ _
  · exact orDefault_fieldFrom _ _
  · exact orDefault_fieldFrom _ _
  · intro hz
    obtain ⟨h1, h2, h3, h4, h5⟩ := hz
    simp only [extractPrescriptionData]
    rw [matchSection_none_of_split_none labDiag h1,
      matchSection_none_of_split_none labMed h2,
      matchSection_none_of_split_none labAdv h3,
      matchSection_none_of_split_none labFU h4,
      matchSection_none_of_split_none labDoc h5]
    rfl
  · exact orDefault_fieldFrom _ _
  · exact orDefault_fieldFrom _ _
  · exact orDefault_fieldFrom _ _
  · exact orDefault_fieldFrom _ _
  · exact orDefault_fieldFrom _ _
  · exact orDefault_fieldFrom _ _
  · intro hz
    obtain ⟨h1, h2, h3, h4, h5, h6⟩ := hz
    simp only [extractHealthPlanData]
    rw [matchSection_none_of_split_none labRecs h1,
      matchSection_none_of_split_none labExer h2,
      matchSection_none_of_split_none labNutr h3,
      matchSection_none_of_split_none labLife h4,
      matchSection_none_of_split_none labFU h5,
      matchSection_none_of_split_none labCoach h6]
    rfl

/-- C2 witness: on a labelless response the extractors return the full
fallback records. -/
theorem C2_no_missing_fields_witness :
    extractPrescriptionData (some profA) "headache".toList "1/1/2025".toList
        "hello".toList
      = some (prescriptionFallback profA "headache".toList "1/1/2025".toList)
    ∧ extractHealthPlanData (some profA) "headache".toList "1/1/2025".toList
        "hello".toList
      = some (healthPlanFallback profA "headache".toList "1/1/2025".toList) := by
  have h := C2_no_missing_fields profA "headache".toList "1/1/2025".toList
    "hello".toList
  exact ⟨h.2.1 (by decide), h.2.2.2 (by decide)⟩

/-- C9 counterexample: the extractor is not independent of when the call
occurs — with identical response text, profile and input, two invocations
on different dates return different records (the `date` field tracks
`new Date()`). -/
theorem C9_time_dependence_counterexample :
    extractPrescriptionData (some profA) "i".toList "1/1/2025".toList "hello".toList
      ≠ extractPrescriptionData (some profA) "i".toList "2/1/2025".toList
        "hello".toList := by
  decide

theorem orDefault_congr_or (v : Option Str) (d1 d2 : Str) :
    orDefault v d1 = orDefault v d2
      ∨ (orDefault v d1 = d1 ∧ orDefault v d2 = d2) := by
  cases v with
  | none => exact Or.inr ⟨rfl, rfl⟩
  | some t =>
    by_cases ht : t.isEmpty
    · right
      constructor <;> simp [orDefault, ht]
    · left
      simp [orDefault, ht]

/-- C9 (amended): the extractors are deterministic functions of the
response text together with the ambient component state they read.  For a
fixed profile, every field except `date` and the input-fallback field
(`symptoms` resp. `goals`) is identical across two invocations with the
same response; the `date` field equals each invocation date, and the
fallback field either coincides across invocations (its section matched
non-trivially) or equals each invocation input-box text. -/
theorem C9_determinism_amended (p : UserProfileData)
    (in1 in2 t1 t2 resp : Str) :
    (∃ r1 r2, extractPrescriptionData (some p) in1 t1 resp = some r1
      ∧ extractPrescriptionData (some p) in2 t2 resp = some r2
      ∧ r1.patientName = p.full_name ∧ r2.patientName = p.full_name
      ∧ r1.date = t1 ∧ r2.date = t2
      ∧ r1.diagnosis = r2.diagnosis ∧ r1.medications = r2.medications
      ∧ r1.advice = r2.advice ∧ r1.followUp = r2.followUp
      ∧ r1.doctor = r2.doctor
      ∧ (r1.symptoms = r2.symptoms ∨ (r1.symptoms = in1 ∧ r2.symptoms = in2)))
    ∧ (∃ h1 h2, extractHealthPlanData (some p) in1 t1 resp = some h1
      ∧ extractHealthPlanData (some p) in2 t2 resp = some h2
      ∧ h1.patientName = p.full_name ∧ h2.patientName = p.full_name
      ∧ h1.date = t1 ∧ h2.date = t2
      ∧ h1.recommendations = h2.recommendations ∧ h1.exercises = h2.exercises
      ∧ h1.nutrition = h2.nutrition ∧ h1.lifestyle = h2.lifestyle
      ∧ h1.followUp = h2.followUp ∧ h1.doctor = h2.doctor
      ∧ (h1.goals = h2.goals ∨ (h1.goals = in1 ∧ h2.goals = in2))) := by
  constructor
  · refine ⟨_, _, rfl, rfl, rfl, rfl, rfl, rfl, rfl, rfl, rfl, rfl, rfl, ?_⟩
    exact orDefault_congr_or (matchSection labSym labDiag resp) in1 in2
  · refine ⟨_, _, rfl, rfl, rfl, rfl, rfl, rfl, rfl, rfl, rfl, rfl, rfl, rfl, ?_⟩
    exact orDefault_congr_or (matchSection labGoals labRecs resp) in1 in2

/-- JS `number`-or-`NaN` for parsed integers: `none` models `NaN`. -/
abbrev JsNum := Option Nat

/-- Numeric value of a list of decimal digit characters. -/
def digitsToNat (ds : Str) : Nat :=
  ds.foldl (fun n c => 10 * n + (c.toNat - 48)) 0

/-- Model of JS `parseInt` on base-10 input: skip leading whitespace, read
a leading digit run, `NaN` when there is none. -/
def parseIntJS (s : Str) : JsNum :=
  if ((s.dropWhile isWsC).takeWhile isDigitC).isEmpty then none
  else some (digitsToNat ((s.dropWhile isWsC).takeWhile isDigitC))

/-- Partial food item accumulated by `parseGPTAnalysis`
(TS `Partial<FoodItem>`); an outer `none` models `undefined`; confidence
is recorded in tenths (source `0.8` becomes `8`). -/
structure PartialFood where
  name : Option Str := none
  portionSize : Option Str := none
  calories : Option JsNum := none
  protein : Option JsNum := none
  carbs : Option JsNum := none
  fat : Option JsNum := none
  confidence10 : Option Nat := none
deriving DecidableEq, Repr

/-- Food item as pushed by the source (`currentFood as FoodItem`): the TS
cast does not re-establish any field, so every field keeps the
possibly-undefined shape of the partial record except the name. -/
structure FoodItem where
  name : Str
  portionSize : Option Str
  calories : Option JsNum
  protein : Option JsNum
  carbs : Option JsNum
  fat : Option JsNum
  confidence10 : Option Nat
deriving DecidableEq, Repr

/-- Cast `currentFood as FoodItem` (only applied when the name is set). -/
def toFoodItem (cur : PartialFood) : FoodItem :=
  { name := cur.name.getD [], portionSize := cur.portionSize,
    calories := cur.calories, protein := cur.protein, carbs := cur.carbs,
    fat := cur.fat, confidence10 := cur.confidence10 }

/-- JS truthiness of `currentFood.name`. -/
def nameTruthy (cur : PartialFood) : Bool :=
  match cur.name with
  | none => false
  | some n => !n.isEmpty

/-- JS truthiness of `currentFood.calories`: `undefined`, `NaN` and `0`
are all falsy. -/
def calTruthy (cur : PartialFood) : Bool :=
  match cur.calories with
  | some (some n) => decide (n ≠ 0)
  | _ => false

/-- Capture of `\s*(.+)` after a matched label: greedy whitespace, then at
least one character to the end of the line (the whitespace run backs off
by one character when only whitespace is left). -/
def tailCapture (rest : Str) : Str :=
  rest.drop (min (rest.takeWhile isWsC).length (rest.length - 1))

def foodLabel : Str := "**Food Item:**".toList

def portionLabel : Str := "Portion Size:".toList

def nutLabel : Str := "Estimated Nutrition:".toList

/-- Scan for `/Label\s*(.+)/i` over a line: first case-insensitive
occurrence of the label followed by at least one character. -/
def scanLabelCapture (lab : Str) : Str → Option Str
  | [] => none
  | c :: s =>
    if beginsCI lab (c :: s) && !((c :: s).drop lab.length).isEmpty then
      some (tailCapture ((c :: s).drop lab.length))
    else scanLabelCapture lab s

/-- Food-item line matcher `/\*\*Food Item:\*\*\s*(.+)/i`. -/
def scanFood (line : Str) : Option Str := scanLabelCapture foodLabel line

/-- Portion-size line matcher `/Portion Size:\s*(.+)/i`. -/
def scanPortion (line : Str) : Option Str := scanLabelCapture portionLabel line

/-- Greedy `(\d+)` at the current position: the maximal digit run, failing
when the head is not a digit.  A shorter run can never satisfy the
following `g`/`kcal` literal, so only the maximal run matters. -/
def grabNum (s : Str) : Option (Str × Str) :=
  if (s.takeWhile isDigitC).isEmpty then none
  else some (s.takeWhile isDigitC, s.drop (s.takeWhile isDigitC).length)

/-- Attempt of `(\d+)g\s*lit` (case-insensitive) at the current position:
the maximal digit run, then `g`, optional whitespace, then the literal.  A
non-maximal run is always followed by a digit, never by `g`, so only the
maximal run matters. -/
def numAt (lit u : Str) : Option (Str × Str) :=
  if (u.takeWhile isDigitC).isEmpty then none
  else
    match u.drop (u.takeWhile isDigitC).length with
    | [] => none
    | g :: u2 =>
      if lowerC g == 'g' && beginsCI lit (u2.dropWhile isWsC) then
        some (u.takeWhile isDigitC, (u2.dropWhile isWsC).drop lit.length)
      else none

/-- Lazy scan `.*?(\d+)g\s*lit` (case-insensitive): earliest position where
`numAt` succeeds. -/
def scanNumLit (lit : Str) : Str → Option (Str × Str)
  | [] => none
  | c :: s =>
    match numAt lit (c :: s) with
    | some r => some r
    | none => scanNumLit lit s

/-- Continuation of the nutrition regex after `Estimated Nutrition:`:
`\s*(\d+)\s*kcal.*?(\d+)g\s*Protein.*?(\d+)g\s*Carbs.*?(\d+)g\s*Fat`. -/
def nutTail (t : Str) : Option (Str × Str × Str × Str) :=
  match grabNum (t.dropWhile isWsC) with
  | none => none
  | some (cs, u) =>
    if beginsCI "kcal".toList (u.dropWhile isWsC) then
      match scanNumLit "Protein".toList ((u.dropWhile isWsC).drop 4) with
      | none => none
      | some (ps, u3) =>
        match scanNumLit "Carbs".toList u3 with
        | none => none
        | some (bs, u4) =>
          match scanNumLit "Fat".toList u4 with
          | none => none
          | some (fs, _) => some (cs, ps, bs, fs)
    else none

/-- Nutrition line matcher: first case-insensitive occurrence of
`Estimated Nutrition:` whose continuation matches. -/
def scanNut : Str → Option (Str × Str × Str × Str)
  | [] => none
  | c :: s =>
    if beginsCI nutLabel (c :: s) then
      match nutTail ((c :: s).drop nutLabel.length) with
      | some r => some r
      | none => scanNut s
    else scanNut s

/-- Continuation of the fallback regex after the name-terminating colon:
`\s*(\d+)\s*kcal.*?(\d+)g.*?(\d+)g.*?(\d+)g` (case-insensitive). -/
def fallbackTail (t : Str) : Option (Str × Str × Str × Str) :=
  match grabNum (t.dropWhile isWsC) with
  | none => none
  | some (cs, u) =>
    if beginsCI "kcal".toList (u.dropWhile isWsC) then
      match scanNumLit [] ((u.dropWhile isWsC).drop 4) with
      | none => none
      | some (ps, u3) =>
        match scanNumLit [] u3 with
        | none => none
        | some (bs, u4) =>
          match scanNumLit [] u4 with
          | none => none
          | some (fs, _) => some (cs, ps, bs, fs)
    else none

/-- Lazy `(.+?):` of the fallback regex: the earliest colon at index at
least 1 whose continuation matches; the name is everything before it.  The
accumulator carries the name seen so far, reversed. -/
def scanColonName (pre : Str) : Str → Option (Str × (Str × Str × Str × Str))
  | [] => none
  | c :: s =>
    if c == ':' && !pre.isEmpty then
      match fallbackTail s with
      | some r => some (pre.reverse, r)
      | none => scanColonName (c :: pre) s
    else scanColonName (c :: pre) s

/-- One line of `parseFallbackFormat` (the source iterates untrimmed
lines). -/
def parseFallbackLine (line : Str) : Option FoodItem :=
  match scanColonName [] line with
  | none => none
  | some (n, (cs, ps, bs, fs)) =>
    some { name := trim n, portionSize := some "Medium".toList,
           calories := some (parseIntJS cs), protein := some (parseIntJS ps),
           carbs := some (parseIntJS bs), fat := some (parseIntJS fs),
           confidence10 := some 7 }

/-- Model of JS `text.split('\n')`. -/
def splitNL : Str → List Str
  | [] => [[]]
  | c :: s =>
    match splitNL s with
    | [] => [[]]
    | h :: t => if c == '\n' then [] :: h :: t else (c :: h) :: t

/-- Embedding of `parseFallbackFormat`. -/
def parseFallbackFormat (text : Str) : List FoodItem :=
  (splitNL text).filterMap parseFallbackLine

/-- One line of the structured-format loop of `parseGPTAnalysis`.  The
pending item is pushed on a new food header only when its name, calories
(truthiness: `0` and `NaN` are falsy) and protein pass the source's guard;
the portion and nutrition matchers are gated on a truthy name, falling
through in source order otherwise. -/
def stepLine (st : List FoodItem × PartialFood) (line : Str) :
    List FoodItem × PartialFood :=
  match scanFood (trim line) with
  | some cap =>
    (if nameTruthy st.2 && calTruthy st.2 && st.2.protein.isSome then
       st.1 ++ [toFoodItem st.2]
     else st.1,
     { name := some (trim cap) })
  | none =>
    match scanPortion (trim line), nameTruthy st.2 with
    | some cap, true => (st.1, { st.2 with portionSize := some (trim cap) })
    | _, _ =>
      match scanNut (trim line), nameTruthy st.2 with
      | some (cs, ps, bs, fs), true =>
        (st.1,
          { st.2 with
              calories := some (parseIntJS cs)
              protein := some (parseIntJS ps)
              carbs := some (parseIntJS bs)
              fat := some (parseIntJS fs)
              confidence10 := some 8 })
      | _, _ => st

/-- Final push of the loop of `parseGPTAnalysis`: the pending item is
appended when its name, calories and protein pass the source's guard. -/
def finishParse (res : List FoodItem × PartialFood) : List FoodItem :=
  if nameTruthy res.2 && calTruthy res.2 && res.2.protein.isSome then
    res.1 ++ [toFoodItem res.2]
  else res.1

/-- Embedding of `parseGPTAnalysis`: structured-format loop over the lines,
final push of the pending item, then the fallback format when the
structured parse produced nothing. -/
def parseGPTAnalysis (text : Str) : List FoodItem :=
  if (finishParse ((splitNL text).foldl stepLine ([], {}))).isEmpty then
    parseFallbackFormat text
  else finishParse ((splitNL text).foldl stepLine ([], {}))

/-- Non-empty all-digit capture string (shape of every `(\d+)` capture). -/
def DigitStr (d : Str) : Prop :=
  d ≠ [] ∧ ∀ c ∈ d, isDigitC c = true

instance (d : Str) : Decidable (DigitStr d) :=
  inferInstanceAs (Decidable (_ ∧ _))

theorem takeWhile_forall {p : Char → Bool} (l : Str) :
    ∀ c ∈ l.takeWhile p, p c = true := by
  induction l with
  | nil => simp
  | cons c cs ih =>
    intro x hx
    rw [List.takeWhile_cons] at hx
    by_cases hc : p c
    · rw [if_pos hc] at hx
      rcases List.mem_cons.mp hx with rfl | hx'
      · exact hc
      · exact ih x hx'
    · rw [if_neg hc] at hx
      simp at hx

theorem takeWhile_all {p : Char → Bool} {l : Str} (h : ∀ c ∈ l, p c = true) :
    l.takeWhile p = l := by
  induction l with
  | nil => rfl
  | cons c cs ih =>
    rw [List.takeWhile_cons, if_pos (h c (List.mem_cons_self _ _))]
    rw [ih (fun x hx => h x (List.mem_cons_of_mem _ hx))]

theorem dropWhile_eq_self_of_head {p : Char → Bool} {l : Str}
    (h : ∀ c, l.head? = some c → p c = false) : l.dropWhile p = l := by
  cases l with
  | nil => rfl
  | cons c cs => rw [List.dropWhile_cons, if_neg (by simp [h c rfl])]

theorem digit_cases {c : Char} (h : isDigitC c = true) :
    c = '0' ∨ c = '1' ∨ c = '2' ∨ c = '3' ∨ c = '4' ∨ c = '5' ∨ c = '6' ∨
    c = '7' ∨ c = '8' ∨ c = '9' := by
  simp only [isDigitC, Bool.or_eq_true, beq_iff_eq] at h
  tauto

theorem digit_not_ws {c : Char} (h : isDigitC c = true) : isWsC c = false := by
  rcases digit_cases h with rfl|rfl|rfl|rfl|rfl|rfl|rfl|rfl|rfl|rfl <;> decide

theorem digit_ne_nl {c : Char} (h : isDigitC c = true) : c ≠ '\n' := by
  rcases digit_cases h with rfl|rfl|rfl|rfl|rfl|rfl|rfl|rfl|rfl|rfl <;> decide

theorem lowerC_digit {c : Char} (h : isDigitC c = true) : lowerC c = c := by
  rcases digit_cases h with rfl|rfl|rfl|rfl|rfl|rfl|rfl|rfl|rfl|rfl <;> decide

theorem parseIntJS_digits {d : Str} (h : DigitStr d) :
    parseIntJS d = some (digitsToNat d) := by
  obtain ⟨hne, hall⟩ := h
  have h1 : d.dropWhile isWsC = d :=
    dropWhile_eq_self_of_head (fun c hc => by
      cases d with
      | nil => simp at hc
      | cons x xs =>
        injection hc with hc
        subst hc
        exact digit_not_ws (hall _ (List.mem_cons_self _ _)))
  unfold parseIntJS
  rw [h1, takeWhile_all hall]
  rw [if_neg (by simpa using hne)]

theorem grabNum_spec {s ds r : Str} (h : grabNum s = some (ds, r)) :
    DigitStr ds := by
  unfold grabNum at h
  split at h
  · exact absurd h (by simp)
  · rename_i he
    injection h with h
    have h1 : s.takeWhile isDigitC = ds := congrArg Prod.fst h
    subst h1
    exact ⟨by simpa using he, takeWhile_forall s⟩

theorem numAt_spec {lit u ds r : Str} (h : numAt lit u = some (ds, r)) :
    DigitStr ds := by
  unfold numAt at h
  split at h
  · exact absurd h (by simp)
  · rename_i he
    split at h
    · exact absurd h (by simp)
    · split at h
      · injection h with h
        have h1 : u.takeWhile isDigitC = ds := congrArg Prod.fst h
        subst h1
        exact ⟨by simpa using he, takeWhile_forall u⟩
      · exact absurd h (by simp)

theorem scanNumLit_cons (lit : Str) (c : Char) (s : Str) :
    scanNumLit lit (c :: s)
      = match numAt lit (c :: s) with
        | some r => some r
        | none => scanNumLit lit s := rfl

theorem scanNumLit_spec {lit : Str} {s ds r : Str}
    (h : scanNumLit lit s = some (ds, r)) : DigitStr ds := by
  induction s with
  | nil =>
    rw [show scanNumLit lit ([] : Str) = none from rfl] at h
    exact absurd h (by simp)
  | cons c cs ih =>
    rw [scanNumLit_cons] at h
    cases hq : numAt lit (c :: cs) with
    | some q =>
      rw [hq] at h
      obtain ⟨ds', r'⟩ := q
      have h' : (some (ds', r') : Option (Str × Str)) = some (ds, r) := h
      injection h' with h''
      have h1 : ds' = ds := congrArg Prod.fst h''
      subst h1
      exact numAt_spec hq
    | none =>
      rw [hq] at h
      exact ih h

theorem nutTail_spec {t cs ps bs fs : Str}
    (h : nutTail t = some (cs, ps, bs, fs)) :
    DigitStr cs ∧ DigitStr ps ∧ DigitStr bs ∧ DigitStr fs := by
  unfold nutTail at h
  split at h
  · exact absurd h (by simp)
  · rename_i cs' u hg
    split at h
    · split at h
      · exact absurd h (by simp)
      · rename_i ps' u3 hp
        split at h
        · exact absurd h (by simp)
        · rename_i bs' u4 hb
          split at h
          · exact absurd h (by simp)
          · rename_i fs' u5 hf
            injection h with h
            obtain ⟨rfl, rfl, rfl, rfl⟩ :
                cs' = cs ∧ ps' = ps ∧ bs' = bs ∧ fs' = fs := by
              have := h
              simp at this
              exact ⟨this.1, this.2.1, this.2.2.1, this.2.2.2⟩
            exact ⟨grabNum_spec hg, scanNumLit_spec hp, scanNumLit_spec hb,
              scanNumLit_spec hf⟩
    · exact absurd h (by simp)

theorem fallbackTail_spec {t cs ps bs fs : Str}
    (h : fallbackTail t = some (cs, ps, bs, fs)) :
    DigitStr cs ∧ DigitStr ps ∧ DigitStr bs ∧ DigitStr fs := by
  unfold fallbackTail at h
  split at h
  · exact absurd h (by simp)
  · rename_i cs' u hg
    split at h
    · split at h
      · exact absurd h (by simp)
      · rename_i ps' u3 hp
        split at h
        · exact absurd h (by simp)
        · rename_i bs' u4 hb
          split at h
          · exact absurd h (by simp)
          · rename_i fs' u5 hf
            injection h with h
            obtain ⟨rfl, rfl, rfl, rfl⟩ :
                cs' = cs ∧ ps' = ps ∧ bs' = bs ∧ fs' = fs := by
              have := h
              simp at this
              exact ⟨this.1, this.2.1, this.2.2.1, this.2.2.2⟩
            exact ⟨grabNum_spec hg, scanNumLit_spec hp, scanNumLit_spec hb,
              scanNumLit_spec hf⟩
    · exact absurd h (by simp)

theorem scanNut_cons (c : Char) (s : Str) :
    scanNut (c :: s)
      = if beginsCI nutLabel (c :: s) then
          match nutTail ((c :: s).drop nutLabel.length) with
          | some r => some r
          | none => scanNut s
        else scanNut s := rfl

theorem scanNut_spec {line cs ps bs fs : Str}
    (h : scanNut line = some (cs, ps, bs, fs)) :
    DigitStr cs ∧ DigitStr ps ∧ DigitStr bs ∧ DigitStr fs := by
  induction line with
  | nil =>
    rw [show scanNut ([] : Str) = none from rfl] at h
    exact absurd h (by simp)
  | cons c s ih =>
    rw [scanNut_cons] at h
    by_cases hb : beginsCI nutLabel (c :: s) = true
    · rw [if_pos hb] at h
      cases ht : nutTail ((c :: s).drop nutLabel.length) with
      | some r =>
        rw [ht] at h
        have h' : some r = some (cs, ps, bs, fs) := h
        injection h' with h''
        subst h''
        exact nutTail_spec ht
      | none =>
        rw [ht] at h
        exact ih h
    · rw [if_neg hb] at h
      exact ih h

theorem scanColonName_cons (pre : Str) (c : Char) (s : Str) :
    scanColonName pre (c :: s)
      = if c == ':' && !pre.isEmpty then
          match fallbackTail s with
          | some r => some (pre.reverse, r)
          | none => scanColonName (c :: pre) s
        else scanColonName (c :: pre) s := rfl

theorem scanColonName_spec {pre l n : Str} {cs ps bs fs : Str}
    (h : scanColonName pre l = some (n, (cs, ps, bs, fs))) :
    DigitStr cs ∧ DigitStr ps ∧ DigitStr bs ∧ DigitStr fs := by
  induction l generalizing pre with
  | nil =>
    rw [show scanColonName pre ([] : Str) = none from rfl] at h
    exact absurd h (by simp)
  | cons c s ih =>
    rw [scanColonName_cons] at h
    by_cases hc : (c == ':' && !pre.isEmpty) = true
    · rw [if_pos hc] at h
      cases ht : fallbackTail s with
      | some r =>
        rw [ht] at h
        have h' : some (pre.reverse, r) = some (n, (cs, ps, bs, fs)) := h
        injection h' with h''
        have hr : r = (cs, ps, bs, fs) := congrArg Prod.snd h''
        subst hr
        exact fallbackTail_spec ht
      | none =>
        rw [ht] at h
        exact ih h
    · rw [if_neg hc] at h
      exact ih h

/-- All four numeric fields present and numeric (decidable form). -/
def goodItemB (it : FoodItem) : Bool :=
  (match it.calories with | some (some _) => true | _ => false) &&
  (match it.protein with | some (some _) => true | _ => false) &&
  (match it.carbs with | some (some _) => true | _ => false) &&
  (match it.fat with | some (some _) => true | _ => false)

/-- Loop invariant of `parseGPTAnalysis`: the numeric fields of the pending
partial item are set all together (by one nutrition match) or not at all. -/
def NumsTogether (cur : PartialFood) : Prop :=
  (cur.calories = none ∧ cur.protein = none ∧ cur.carbs = none ∧ cur.fat = none)
  ∨ ((∃ n, cur.calories = some (some n)) ∧ (∃ n, cur.protein = some (some n))
     ∧ (∃ n, cur.carbs = some (some n)) ∧ (∃ n, cur.fat = some (some n)))

theorem goodItemB_of_nums {cur : PartialFood} (h : NumsTogether cur)
    (hcal : calTruthy cur = true) : goodItemB (toFoodItem cur) = true := by
  rcases h with ⟨h1, _, _, _⟩ | ⟨⟨n1, e1⟩, ⟨n2, e2⟩, ⟨n3, e3⟩, ⟨n4, e4⟩⟩
  · exfalso
    unfold calTruthy at hcal
    rw [h1] at hcal
    simp at hcal
  · unfold goodItemB toFoodItem
    rw [e1, e2, e3, e4]
    rfl

theorem stepLine_food (st : List FoodItem × PartialFood) (line : Str) (cap : Str)
    (hF : scanFood (trim line) = some cap) :
    stepLine st line
      = (if nameTruthy st.2 && calTruthy st.2 && st.2.protein.isSome then
           st.1 ++ [toFoodItem st.2]
         else st.1,
         { name := some (trim cap) }) := by
  unfold stepLine
  rw [hF]

theorem stepLine_portion (st : List FoodItem × PartialFood) (line : Str) (cap : Str)
    (hF : scanFood (trim line) = none) (hP : scanPortion (trim line) = some cap)
    (hN : nameTruthy st.2 = true) :
    stepLine st line = (st.1, { st.2 with portionSize := some (trim cap) }) := by
  unfold stepLine
  rw [hF, hP, hN]

theorem stepLine_nut (st : List FoodItem × PartialFood) (line : Str)
    (cs ps bs fs : Str)
    (hF : scanFood (trim line) = none) (hP : scanPortion (trim line) = none)
    (hNut : scanNut (trim line) = some (cs, ps, bs, fs))
    (hN : nameTruthy st.2 = true) :
    stepLine st line
      = (st.1,
         { st.2 with
             calories := some (parseIntJS cs)
             protein := some (parseIntJS ps)
             carbs := some (parseIntJS bs)
             fat := some (parseIntJS fs)
             confidence10 := some 8 }) := by
  unfold stepLine
  rw [hF, hP, hNut, hN]

theorem stepLine_skip_noname (st : List FoodItem × PartialFood) (line : Str)
    (hF : scanFood (trim line) = none) (hN : nameTruthy st.2 = false) :
    stepLine st line = st := by
  unfold stepLine
  rw [hF, hN]
  cases hP : scanPortion (trim line) <;> cases hNut : scanNut (trim line) <;> rfl

theorem stepLine_skip_nomatch (st : List FoodItem × PartialFood) (line : Str)
    (hF : scanFood (trim line) = none) (hP : scanPortion (trim line) = none)
    (hNut : scanNut (trim line) = none) :
    stepLine st line = st := by
  unfold stepLine
  rw [hF, hP, hNut]

theorem stepLine_inv (st : List FoodItem × PartialFood) (line : Str)
    (h1 : ∀ it ∈ st.1, goodItemB it = true) (h2 : NumsTogether st.2) :
    (∀ it ∈ (stepLine st line).1, goodItemB it = true)
    ∧ NumsTogether (stepLine st line).2 := by
  cases hF : scanFood (trim line) with
  | some cap =>
    rw [stepLine_food st line cap hF]
    refine ⟨?_, Or.inl ⟨rfl, rfl, rfl, rfl⟩⟩
    intro it hit
    by_cases hg : (nameTruthy st.2 && calTruthy st.2 && st.2.protein.isSome) = true
    · rw [if_pos hg] at hit
      rcases List.mem_append.mp hit with hmem | hmem
      · exact h1 it hmem
      · rcases List.mem_singleton.mp hmem with rfl
        have hcal : calTruthy st.2 = true :=
          (Bool.and_eq_true_iff.mp (Bool.and_eq_true_iff.mp hg).1).2
        exact goodItemB_of_nums h2 hcal
    · rw [if_neg hg] at hit
      exact h1 it hit
  | none =>
    cases hN : nameTruthy st.2 with
    | false =>
      rw [stepLine_skip_noname st line hF hN]
      exact ⟨h1, h2⟩
    | true =>
      cases hP : scanPortion (trim line) with
      | some cap =>
        rw [stepLine_portion st line cap hF hP hN]
        exact ⟨h1, h2⟩
      | none =>
        cases hNut : scanNut (trim line) with
        | none =>
          rw [stepLine_skip_nomatch st line hF hP hNut]
          exact ⟨h1, h2⟩
        | some q =>
          obtain ⟨cs, ps, bs, fs⟩ := q
          rw [stepLine_nut st line cs ps bs fs hF hP hNut hN]
          have hspec := scanNut_spec hNut
          refine ⟨h1, Or.inr ?_⟩
          exact ⟨⟨digitsToNat cs, by rw [parseIntJS_digits hspec.1]⟩,
            ⟨digitsToNat ps, by rw [parseIntJS_digits hspec.2.1]⟩,
            ⟨digitsToNat bs, by rw [parseIntJS_digits hspec.2.2.1]⟩,
            ⟨digitsToNat fs, by rw [parseIntJS_digits hspec.2.2.2]⟩⟩

theorem foldl_stepLine_inv (lines : List Str) (st : List FoodItem × PartialFood)
    (h1 : ∀ it ∈ st.1, goodItemB it = true) (h2 : NumsTogether st.2) :
    (∀ it ∈ (lines.foldl stepLine st).1, goodItemB it = true)
    ∧ NumsTogether (lines.foldl stepLine st).2 := by
  induction lines generalizing st with
  | nil => exact ⟨h1, h2⟩
  | cons l ls ih =>
    have hs := stepLine_inv st l h1 h2
    exact ih (stepLine st l) hs.1 hs.2

theorem parseFallbackFormat_good (text : Str) :
    ∀ it ∈ parseFallbackFormat text, goodItemB it = true := by
  intro it hit
  unfold parseFallbackFormat at hit
  rcases List.mem_filterMap.mp hit with ⟨line, _, hline⟩
  unfold parseFallbackLine at hline
  cases hs : scanColonName [] line with
  | none => rw [hs] at hline; exact absurd hline (by simp)
  | some r =>
    obtain ⟨n, cs, ps, bs, fs⟩ := r
    rw [hs] at hline
    injection hline with hline
    subst hline
    have hspec := scanColonName_spec hs
    unfold goodItemB
    rw [parseIntJS_digits hspec.1, parseIntJS_digits hspec.2.1,
      parseIntJS_digits hspec.2.2.1, parseIntJS_digits hspec.2.2.2]
    rfl

theorem finishParse_good (res : List FoodItem × PartialFood)
    (h1 : ∀ it ∈ res.1, goodItemB it = true) (h2 : NumsTogether res.2) :
    ∀ it ∈ finishParse res, goodItemB it = true := by
  intro it hit
  unfold finishParse at hit
  by_cases hg : (nameTruthy res.2 && calTruthy res.2 && res.2.protein.isSome) = true
  · rw [if_pos hg] at hit
    rcases List.mem_append.mp hit with hmem | hmem
    · exact h1 it hmem
    · rcases List.mem_singleton.mp hmem with rfl
      have hcal : calTruthy res.2 = true :=
        (Bool.and_eq_true_iff.mp (Bool.and_eq_true_iff.mp hg).1).2
      exact goodItemB_of_nums h2 hcal
  · rw [if_neg hg] at hit
    exact h1 it hit

/-- C4: numeric parsing in the nutrition extractors never fails.  Every
food record produced by `parseGPTAnalysis` (structured or fallback path)
has all four numeric fields present and numeric — never `NaN` and never
`undefined` — because every numeric capture is a non-empty digit run; a
food item with partial numeric fields is skipped, and the parse of the
whole response still returns a list rather than failing. -/
theorem C4_numeric_parsing_safe (text : Str) :
    (parseGPTAnalysis text).all goodItemB = true
    ∧ (parseFallbackFormat text).all goodItemB = true := by
  have hfb : ∀ it ∈ parseFallbackFormat text, goodItemB it = true :=
    parseFallbackFormat_good text
  constructor
  · have hinv := foldl_stepLine_inv (splitNL text) ([], {}) (by simp)
      (Or.inl ⟨rfl, rfl, rfl, rfl⟩)
    have hfin := finishParse_good _ hinv.1 hinv.2
    unfold parseGPTAnalysis
    rw [List.all_eq_true]
    intro it hit
    by_cases he : (finishParse ((splitNL text).foldl stepLine ([], {}))).isEmpty = true
    · rw [if_pos he] at hit
      exact hfb it hit
    · rw [if_neg he] at hit
      exact hfin it hit
  · rw [List.all_eq_true]
    exact hfb

theorem splitNL_cons_eq (c : Char) (s : Str) :
    splitNL (c :: s)
      = match splitNL s with
        | [] => [[]]
        | h :: t => if c == '\n' then [] :: h :: t else (c :: h) :: t := rfl

theorem splitNL_ne_nil (s : Str) : splitNL s ≠ [] := by
  cases s with
  | nil => simp [splitNL]
  | cons c s =>
    rw [splitNL_cons_eq]
    cases hs : splitNL s with
    | nil => simp
    | cons h t =>
      show (if c == '\n' then [] :: h :: t else (c :: h) :: t) ≠ []
      by_cases hc : (c == '\n') = true
      · rw [if_pos hc]; simp
      · rw [if_neg hc]; simp

theorem splitNL_cons_nl (s : Str) : splitNL ('\n' :: s) = [] :: splitNL s := by
  rw [splitNL_cons_eq]
  cases hs : splitNL s with
  | nil => exact absurd hs (splitNL_ne_nil s)
  | cons h t =>
    show (if '\n' == '\n' then [] :: h :: t else ('\n' :: h) :: t) = [] :: h :: t
    rw [if_pos (by decide)]

theorem splitNL_cons_other {c : Char} (s : Str) (hc : c ≠ '\n') :
    splitNL (c :: s)
      = match splitNL s with
        | [] => [[]]
        | h :: t => (c :: h) :: t := by
  rw [splitNL_cons_eq]
  cases hs : splitNL s with
  | nil => rfl
  | cons h t =>
    show (if c == '\n' then [] :: h :: t else (c :: h) :: t) = (c :: h) :: t
    rw [if_neg (by simp [hc])]

theorem splitNL_line (l rest : Str) (hl : ∀ x ∈ l, x ≠ '\n') :
    splitNL (l ++ '\n' :: rest) = l :: splitNL rest := by
  induction l with
  | nil => exact splitNL_cons_nl rest
  | cons c l' ih =>
    rw [List.cons_append,
      splitNL_cons_other _ (hl c (List.mem_cons_self _ _)),
      ih (fun x hx => hl x (List.mem_cons_of_mem _ hx))]

theorem splitNL_last (l : Str) (hl : ∀ x ∈ l, x ≠ '\n') : splitNL l = [l] := by
  induction l with
  | nil => rfl
  | cons c l' ih =>
    rw [splitNL_cons_other _ (hl c (List.mem_cons_self _ _)),
      ih (fun x hx => hl x (List.mem_cons_of_mem _ hx))]

theorem trim_eq_self {l : Str} (h1 : ∀ c, l.head? = some c → isWsC c = false)
    (h2 : ∀ c, l.reverse.head? = some c → isWsC c = false) : trim l = l := by
  unfold trim trimR
  rw [dropWhile_eq_self_of_head h1]
  rw [dropWhile_eq_self_of_head h2, List.reverse_reverse]

theorem reverse_head_append {t : Str} (l : Str) {c : Char}
    (h : t.reverse.head? = some c) : (l ++ t).reverse.head? = some c := by
  rw [List.reverse_append]
  cases ht : t.reverse with
  | nil => rw [ht] at h; simp at h
  | cons x xs =>
    rw [ht] at h
    injection h with h
    subst h
    rfl

theorem begins_mem {pat s : Str} (h : begins pat s = true) : ∀ c ∈ pat, c ∈ s := by
  induction pat generalizing s with
  | nil => simp
  | cons p ps ih =>
    cases s with
    | nil => simp [begins] at h
    | cons x xs =>
      rw [show begins (p :: ps) (x :: xs) = (p == x && begins ps xs) from rfl,
        Bool.and_eq_true_iff] at h
      intro c hc
      rcases List.mem_cons.mp hc with rfl | hc'
      · rw [beq_iff_eq] at *
        exact h.1 ▸ List.mem_cons_self _ _
      · exact List.mem_cons_of_mem _ (ih h.2 c hc')

theorem beginsCI_mem {pat s : Str} (h : beginsCI pat s = true) :
    ∀ c ∈ pat.map lowerC, c ∈ s.map lowerC := by
  unfold beginsCI at h
  exact begins_mem h

theorem scanLabelCapture_cons_eq (lab : Str) (c : Char) (s : Str) :
    scanLabelCapture lab (c :: s)
      = if beginsCI lab (c :: s) && !((c :: s).drop lab.length).isEmpty then
          some (tailCapture ((c :: s).drop lab.length))
        else scanLabelCapture lab s := rfl

theorem scanLabelCapture_missing (lab : Str) (x : Char)
    (hx : x ∈ lab.map lowerC) :
    ∀ l : Str, x ∉ l.map lowerC → scanLabelCapture lab l = none := by
  intro l
  induction l with
  | nil => intro _; rfl
  | cons c s ih =>
    intro hl
    rw [scanLabelCapture_cons_eq]
    have hb : beginsCI lab (c :: s) = false := by
      rcases Bool.eq_false_or_eq_true (beginsCI lab (c :: s)) with ht | hf
      · exact absurd (beginsCI_mem ht x hx) hl
      · exact hf
    rw [if_neg (by simp [hb])]
    exact ih (fun hmem => hl (by
      rcases List.mem_map.mp hmem with ⟨a, ha, rfl⟩
      exact List.mem_map.mpr ⟨a, List.mem_cons_of_mem _ ha, rfl⟩))

theorem takeWhile_append_stop {p : Char → Bool} (d r : Str)
    (hd : ∀ c ∈ d, p c = true) (hr : ∀ c, r.head? = some c → p c = false) :
    (d ++ r).takeWhile p = d := by
  induction d with
  | nil =>
    cases r with
    | nil => rfl
    | cons x xs => simp [List.takeWhile_cons, hr x rfl]
  | cons c cs ih =>
    rw [List.cons_append, List.takeWhile_cons,
      if_pos (hd c (List.mem_cons_self _ _)),
      ih (fun y hy => hd y (List.mem_cons_of_mem _ hy))]

theorem drop_append_le {n : Nat} {x z : Str} (h : n ≤ x.length) :
    (x ++ z).drop n = x.drop n ++ z := by
  induction x generalizing n with
  | nil =>
    have hn : n = 0 := Nat.le_zero.mp (by simpa using h)
    subst hn
    simp
  | cons c cs ih =>
    cases n with
    | zero => simp
    | succ m =>
      rw [List.cons_append, List.drop_succ_cons, List.drop_succ_cons]
      exact ih (by simpa using h)

theorem grabNum_digits_append (d r : Str) (hd : DigitStr d)
    (hr : ∀ c, r.head? = some c → isDigitC c = false) :
    grabNum (d ++ r) = some (d, r) := by
  have htw : (d ++ r).takeWhile isDigitC = d :=
    takeWhile_append_stop d r hd.2 hr
  unfold grabNum
  rw [htw, if_neg (by simpa using hd.1)]
  rw [show d.length = d.length from rfl, List.drop_left]

theorem numAt_exact (lit d w : Str) (hd : DigitStr d)
    (hbg : beginsCI lit (w.dropWhile isWsC) = true) :
    numAt lit (d ++ 'g' :: w)
      = some (d, (w.dropWhile isWsC).drop lit.length) := by
  have htw : (d ++ 'g' :: w).takeWhile isDigitC = d :=
    takeWhile_append_stop d ('g' :: w) hd.2
      (fun c hc => by injection hc with hc; subst hc; decide)
  unfold numAt
  rw [htw, if_neg (by simpa using hd.1), List.drop_left]
  show (if lowerC 'g' == 'g' && beginsCI lit (w.dropWhile isWsC) then
      some (d, (w.dropWhile isWsC).drop lit.length) else none) = _
  rw [if_pos (by rw [hbg]; decide)]

theorem numAt_nondigit (lit : Str) {c : Char} (s : Str) (hc : isDigitC c = false) :
    numAt lit (c :: s) = none := by
  have htw : (c :: s).takeWhile isDigitC = [] := by
    rw [List.takeWhile_cons, if_neg (by simp [hc])]
  unfold numAt
  rw [htw]
  rfl

theorem scanNumLit_step {lit : Str} {c : Char} (s : Str)
    (hc : isDigitC c = false) : scanNumLit lit (c :: s) = scanNumLit lit s := by
  rw [scanNumLit_cons, numAt_nondigit lit s hc]

theorem scanNumLit_at (lit d w : Str) (hd : DigitStr d)
    (hbg : beginsCI lit (w.dropWhile isWsC) = true) :
    scanNumLit lit (d ++ 'g' :: w)
      = some (d, (w.dropWhile isWsC).drop lit.length) := by
  obtain ⟨x, xs, rfl⟩ : ∃ y ys, d = y :: ys := by
    cases d with
    | nil => exact absurd rfl hd.1
    | cons y ys => exact ⟨y, ys, rfl⟩
  rw [List.cons_append, scanNumLit_cons,
    show (x :: (xs ++ 'g' :: w)) = (x :: xs) ++ 'g' :: w from rfl,
    numAt_exact lit (x :: xs) w hd hbg]

theorem beginsCI_append_left {pat x : Str} (s : Str) (h : pat.length ≤ x.length) :
    beginsCI pat (x ++ s) = beginsCI pat x := by
  unfold beginsCI
  rw [List.map_append]
  exact begins_append_left _ (by simpa using h)

/-- Canonical nutrition line of the claimed format, e.g.
`Estimated Nutrition: 210 kcal | 4g Protein | 45g Carbs | 1g Fat`. -/
def nutLine (cs ps bs fs : Str) : Str :=
  nutLabel ++ ' ' :: (cs ++ (" kcal | ".toList ++ (ps ++ ('g' ::
    (" Protein | ".toList ++ (bs ++ ('g' :: (" Carbs | ".toList ++
      (fs ++ ('g' :: " Fat".toList))))))))))

def foodLineA : Str := "**Food Item:** Apple".toList

def foodLineR : Str := "**Food Item:** Rice".toList

def foodLineE : Str := "**Food Item:** Egg".toList

/-- Canonical three-item nutrition-analysis response. -/
def mkMealText (c1 p1 b1 f1 c2 p2 b2 f2 c3 p3 b3 f3 : Str) : Str :=
  foodLineA ++ '\n' :: (nutLine c1 p1 b1 f1 ++ '\n' :: (foodLineR ++ '\n' ::
    (nutLine c2 p2 b2 f2 ++ '\n' :: (foodLineE ++ '\n' :: nutLine c3 p3 b3 f3))))

theorem mem_nutLine {a : Char} {cs ps bs fs : Str} (h : a ∈ nutLine cs ps bs fs) :
    a ∈ nutLabel ∨ a = ' ' ∨ a ∈ cs ∨ a ∈ " kcal | ".toList ∨ a ∈ ps ∨ a = 'g'
    ∨ a ∈ " Protein | ".toList ∨ a ∈ bs ∨ a ∈ " Carbs | ".toList ∨ a ∈ fs
    ∨ a ∈ " Fat".toList := by
  unfold nutLine at h
  simp only [List.mem_append, List.mem_cons] at h
  tauto

theorem digit_lower_ne {a x : Char} (hd : isDigitC a = true)
    (hx : isDigitC x = false) : lowerC a ≠ x := by
  rw [lowerC_digit hd]
  intro e
  subst e
  rw [hd] at hx
  cases hx

theorem nutLine_missing_lower (cs ps bs fs : Str)
    (hc : DigitStr cs) (hp : DigitStr ps) (hb : DigitStr bs) (hf : DigitStr fs)
    (x : Char) (hxd : isDigitC x = false)
    (h1 : ∀ c ∈ nutLabel, lowerC c ≠ x)
    (h2 : lowerC ' ' ≠ x)
    (h3 : ∀ c ∈ " kcal | ".toList, lowerC c ≠ x)
    (h4 : lowerC 'g' ≠ x)
    (h5 : ∀ c ∈ " Protein | ".toList, lowerC c ≠ x)
    (h6 : ∀ c ∈ " Carbs | ".toList, lowerC c ≠ x)
    (h7 : ∀ c ∈ " Fat".toList, lowerC c ≠ x) :
    x ∉ (nutLine cs ps bs fs).map lowerC := by
  intro hmem
  rcases List.mem_map.mp hmem with ⟨a, ha, hla⟩
  rcases mem_nutLine ha with h|h|h|h|h|h|h|h|h|h|h
  · exact h1 a h hla
  · exact h2 (h ▸ hla)
  · exact digit_lower_ne (hc.2 a h) hxd hla
  · exact h3 a h hla
  · exact digit_lower_ne (hp.2 a h) hxd hla
  · exact h4 (h ▸ hla)
  · exact h5 a h hla
  · exact digit_lower_ne (hb.2 a h) hxd hla
  · exact h6 a h hla
  · exact digit_lower_ne (hf.2 a h) hxd hla
  · exact h7 a h hla

theorem scanFood_nutLine (cs ps bs fs : Str)
    (hc : DigitStr cs) (hp : DigitStr ps) (hb : DigitStr bs) (hf : DigitStr fs) :
    scanFood (nutLine cs ps bs fs) = none :=
  scanLabelCapture_missing foodLabel '*' (by decide) _
    (nutLine_missing_lower cs ps bs fs hc hp hb hf '*' (by decide) (by decide)
      (by decide) (by decide) (by decide) (by decide) (by decide) (by decide))

theorem scanPortion_nutLine (cs ps bs fs : Str)
    (hc : DigitStr cs) (hp : DigitStr ps) (hb : DigitStr bs) (hf : DigitStr fs) :
    scanPortion (nutLine cs ps bs fs) = none :=
  scanLabelCapture_missing portionLabel 'z' (by decide) _
    (nutLine_missing_lower cs ps bs fs hc hp hb hf 'z' (by decide) (by decide)
      (by decide) (by decide) (by decide) (by decide) (by decide) (by decide))

theorem nutLine_no_nl (cs ps bs fs : Str)
    (hc : DigitStr cs) (hp : DigitStr ps) (hb : DigitStr bs) (hf : DigitStr fs) :
    ∀ x ∈ nutLine cs ps bs fs, x ≠ '\n' := by
  intro x hx
  rcases mem_nutLine hx with h|h|h|h|h|h|h|h|h|h|h
  · exact (by decide : ∀ c ∈ nutLabel, c ≠ '\n') x h
  · subst h; decide
  · exact digit_ne_nl (hc.2 x h)
  · exact (by decide : ∀ c ∈ " kcal | ".toList, c ≠ '\n') x h
  · exact digit_ne_nl (hp.2 x h)
  · subst h; decide
  · exact (by decide : ∀ c ∈ " Protein | ".toList, c ≠ '\n') x h
  · exact digit_ne_nl (hb.2 x h)
  · exact (by decide : ∀ c ∈ " Carbs | ".toList, c ≠ '\n') x h
  · exact digit_ne_nl (hf.2 x h)
  · exact (by decide : ∀ c ∈ " Fat".toList, c ≠ '\n') x h

theorem trim_nutLine (cs ps bs fs : Str) :
    trim (nutLine cs ps bs fs) = nutLine cs ps bs fs := by
  apply trim_eq_self
  · intro c hc
    have h0 : (nutLine cs ps bs fs).head? = some 'E' := rfl
    rw [h0] at hc
    injection hc with hc
    subst hc
    decide
  · intro c hc
    have r0 : ((" Fat".toList : Str)).reverse.head? = some 't' := rfl
    have r1 : (('g' :: " Fat".toList : Str)).reverse.head? = some 't' :=
      reverse_head_append ['g'] r0
    have r2 : ((fs ++ 'g' :: " Fat".toList)).reverse.head? = some 't' :=
      reverse_head_append fs r1
    have r3 : ((" Carbs | ".toList ++ (fs ++ 'g' :: " Fat".toList))).reverse.head?
        = some 't' := reverse_head_append _ r2
    have r4 : (('g' :: (" Carbs | ".toList ++ (fs ++ 'g' :: " Fat".toList)))).reverse.head?
        = some 't' := reverse_head_append ['g'] r3
    have r5 : ((bs ++ 'g' :: (" Carbs | ".toList ++ (fs ++ 'g' :: " Fat".toList)))).reverse.head?
        = some 't' := reverse_head_append bs r4
    have r6 : ((" Protein | ".toList ++ (bs ++ 'g' :: (" Carbs | ".toList ++
        (fs ++ 'g' :: " Fat".toList))))).reverse.head? = some 't' :=
      reverse_head_append _ r5
    have r7 : (('g' :: (" Protein | ".toList ++ (bs ++ 'g' :: (" Carbs | ".toList ++
        (fs ++ 'g' :: " Fat".toList)))))).reverse.head? = some 't' :=
      reverse_head_append ['g'] r6
    have r8 : ((ps ++ 'g' :: (" Protein | ".toList ++ (bs ++ 'g' ::
        (" Carbs | ".toList ++ (fs ++ 'g' :: " Fat".toList)))))).reverse.head?
        = some 't' := reverse_head_append ps r7
    have r9 : ((" kcal | ".toList ++ (ps ++ 'g' :: (" Protein | ".toList ++
        (bs ++ 'g' :: (" Carbs | ".toList ++ (fs ++ 'g' :: " Fat".toList))))))).reverse.head?
        = some 't' := reverse_head_append _ r8
    have r10 : ((cs ++ (" kcal | ".toList ++ (ps ++ 'g' :: (" Protein | ".toList ++
        (bs ++ 'g' :: (" Carbs | ".toList ++ (fs ++ 'g' :: " Fat".toList)))))))).reverse.head?
        = some 't' := reverse_head_append cs r9
    have r11 : ((' ' :: (cs ++ (" kcal | ".toList ++ (ps ++ 'g' ::
        (" Protein | ".toList ++ (bs ++ 'g' :: (" Carbs | ".toList ++
        (fs ++ 'g' :: " Fat".toList))))))))).reverse.head? = some 't' :=
      reverse_head_append [' '] r10
    have r12 : (nutLine cs ps bs fs).reverse.head? = some 't' :=
      reverse_head_append nutLabel r11
    rw [r12] at hc
    injection hc with hc
    subst hc
    decide

def tailFat (fs : Str) : Str := fs ++ 'g' :: " Fat".toList

def tailCarbs (bs fs : Str) : Str := bs ++ 'g' :: (" Carbs | ".toList ++ tailFat fs)

def tailProt (ps bs fs : Str) : Str :=
  ps ++ 'g' :: (" Protein | ".toList ++ tailCarbs bs fs)

theorem nutLine_decomp (cs ps bs fs : Str) :
    nutLine cs ps bs fs
      = nutLabel ++ ' ' :: (cs ++ (" kcal | ".toList ++ tailProt ps bs fs)) := rfl

theorem dropWhile_ws_append_head {x : Char} (s r : Str) (hx : isWsC x = false) :
    ((x :: s) ++ r).dropWhile isWsC = (x :: s) ++ r := by
  rw [List.cons_append, List.dropWhile_cons, if_neg (by simp [hx])]

theorem dropWhile_ws_digits (d r : Str) (hd : DigitStr d) :
    (d ++ r).dropWhile isWsC = d ++ r := by
  obtain ⟨x, xs, rfl⟩ : ∃ y ys, d = y :: ys := by
    cases d with
    | nil => exact absurd rfl hd.1
    | cons y ys => exact ⟨y, ys, rfl⟩
  exact dropWhile_ws_append_head xs r
    (digit_not_ws (hd.2 x (List.mem_cons_self _ _)))

theorem scanFat_eval (fs : Str) (hf : DigitStr fs) :
    scanNumLit "Fat".toList (" | ".toList ++ tailFat fs) = some (fs, []) := by
  rw [show (" | ".toList ++ tailFat fs : Str)
      = ' ' :: ('|' :: (' ' :: tailFat fs)) from rfl]
  rw [scanNumLit_step _ (by decide), scanNumLit_step _ (by decide),
    scanNumLit_step _ (by decide)]
  unfold tailFat
  rw [scanNumLit_at "Fat".toList fs " Fat".toList hf (by decide)]
  rfl

theorem scanCarbs_eval (bs fs : Str) (hb : DigitStr bs) :
    scanNumLit "Carbs".toList (" | ".toList ++ tailCarbs bs fs)
      = some (bs, " | ".toList ++ tailFat fs) := by
  rw [show (" | ".toList ++ tailCarbs bs fs : Str)
      = ' ' :: ('|' :: (' ' :: tailCarbs bs fs)) from rfl]
  rw [scanNumLit_step _ (by decide), scanNumLit_step _ (by decide),
    scanNumLit_step _ (by decide)]
  unfold tailCarbs
  rw [scanNumLit_at "Carbs".toList bs (" Carbs | ".toList ++ tailFat fs) hb ?_]
  · have hdw : ((" Carbs | ".toList ++ tailFat fs : Str)).dropWhile isWsC
        = "Carbs | ".toList ++ tailFat fs := by
      rw [show (" Carbs | ".toList ++ tailFat fs : Str)
          = ' ' :: ("Carbs | ".toList ++ tailFat fs) from rfl]
      rw [List.dropWhile_cons, if_pos (by decide)]
      exact dropWhile_ws_append_head _ _ (by decide)
    rw [hdw, drop_append_le (by decide)]
    rw [show ("Carbs | ".toList : Str).drop "Carbs".toList.length
        = " | ".toList from rfl]
  · have hdw : ((" Carbs | ".toList ++ tailFat fs : Str)).dropWhile isWsC
        = "Carbs | ".toList ++ tailFat fs := by
      rw [show (" Carbs | ".toList ++ tailFat fs : Str)
          = ' ' :: ("Carbs | ".toList ++ tailFat fs) from rfl]
      rw [List.dropWhile_cons, if_pos (by decide)]
      exact dropWhile_ws_append_head _ _ (by decide)
    rw [hdw, beginsCI_append_left _ (by decide)]
    decide

theorem scanProt_eval (ps bs fs : Str) (hp : DigitStr ps) :
    scanNumLit "Protein".toList (" | ".toList ++ tailProt ps bs fs)
      = some (ps, " | ".toList ++ tailCarbs bs fs) := by
  rw [show (" | ".toList ++ tailProt ps bs fs : Str)
      = ' ' :: ('|' :: (' ' :: tailProt ps bs fs)) from rfl]
  rw [scanNumLit_step _ (by decide), scanNumLit_step _ (by decide),
    scanNumLit_step _ (by decide)]
  unfold tailProt
  rw [scanNumLit_at "Protein".toList ps
    (" Protein | ".toList ++ tailCarbs bs fs) hp ?_]
  · have hdw : ((" Protein | ".toList ++ tailCarbs bs fs : Str)).dropWhile isWsC
        = "Protein | ".toList ++ tailCarbs bs fs := by
      rw [show (" Protein | ".toList ++ tailCarbs bs fs : Str)
          = ' ' :: ("Protein | ".toList ++ tailCarbs bs fs) from rfl]
      rw [List.dropWhile_cons, if_pos (by decide)]
      exact dropWhile_ws_append_head _ _ (by decide)
    rw [hdw, drop_append_le (by decide)]
    rw [show ("Protein | ".toList : Str).drop "Protein".toList.length
        = " | ".toList from rfl]
  · have hdw : ((" Protein | ".toList ++ tailCarbs bs fs : Str)).dropWhile isWsC
        = "Protein | ".toList ++ tailCarbs bs fs := by
      rw [show (" Protein | ".toList ++ tailCarbs bs fs : Str)
          = ' ' :: ("Protein | ".toList ++ tailCarbs bs fs) from rfl]
      rw [List.dropWhile_cons, if_pos (by decide)]
      exact dropWhile_ws_append_head _ _ (by decide)
    rw [hdw, beginsCI_append_left _ (by decide)]
    decide

theorem nutTail_nutLine (cs ps bs fs : Str) (hc : DigitStr cs) (hp : DigitStr ps)
    (hb : DigitStr bs) (hf : DigitStr fs) :
    nutTail (' ' :: (cs ++ (" kcal | ".toList ++ tailProt ps bs fs)))
      = some (cs, ps, bs, fs) := by
  have hdw : ((' ' :: (cs ++ (" kcal | ".toList ++ tailProt ps bs fs)) : Str)).dropWhile
        isWsC = cs ++ (" kcal | ".toList ++ tailProt ps bs fs) := by
    rw [List.dropWhile_cons, if_pos (by decide)]
    exact dropWhile_ws_digits cs _ hc
  have hgrab : grabNum (cs ++ (" kcal | ".toList ++ tailProt ps bs fs))
      = some (cs, " kcal | ".toList ++ tailProt ps bs fs) :=
    grabNum_digits_append cs _ hc (fun c hcY => by
      rw [show ((" kcal | ".toList ++ tailProt ps bs fs : Str)).head?
          = some ' ' from rfl] at hcY
      injection hcY with hcY
      subst hcY
      decide)
  have hu2 : ((" kcal | ".toList ++ tailProt ps bs fs : Str)).dropWhile isWsC
      = "kcal | ".toList ++ tailProt ps bs fs := by
    rw [show (" kcal | ".toList ++ tailProt ps bs fs : Str)
        = ' ' :: ("kcal | ".toList ++ tailProt ps bs fs) from rfl]
    rw [List.dropWhile_cons, if_pos (by decide)]
    exact dropWhile_ws_append_head _ _ (by decide)
  unfold nutTail
  rw [hdw, hgrab]
  simp only []
  rw [hu2, beginsCI_append_left _ (by decide), if_pos (by decide)]
  rw [drop_append_le (by decide),
    show ("kcal | ".toList : Str).drop 4 = " | ".toList from rfl]
  rw [scanProt_eval ps bs fs hp]
  simp only []
  rw [scanCarbs_eval bs fs hb]
  simp only []
  rw [scanFat_eval fs hf]

theorem scanNut_hit {line : Str} {q : Str × Str × Str × Str}
    (h : beginsCI nutLabel line = true)
    (ht : nutTail (line.drop nutLabel.length) = some q) : scanNut line = some q := by
  cases line with
  | nil => exact absurd h (by decide)
  | cons c s => rw [scanNut_cons, if_pos h, ht]

theorem scanNut_nutLine (cs ps bs fs : Str) (hc : DigitStr cs) (hp : DigitStr ps)
    (hb : DigitStr bs) (hf : DigitStr fs) :
    scanNut (nutLine cs ps bs fs) = some (cs, ps, bs, fs) := by
  apply scanNut_hit
  · rw [nutLine_decomp, beginsCI_append_left _ (by decide)]
    decide
  · rw [nutLine_decomp, List.drop_left]
    exact nutTail_nutLine cs ps bs fs hc hp hb hf

/-- Pending partial item after a food header and its nutrition line. -/
def pendItem (nm cs ps bs fs : Str) : PartialFood :=
  { name := some nm, portionSize := none,
    calories := some (some (digitsToNat cs)),
    protein := some (some (digitsToNat ps)),
    carbs := some (some (digitsToNat bs)),
    fat := some (some (digitsToNat fs)),
    confidence10 := some 8 }

/-- Food record produced for one canonical item. -/
def mealItem (nm cs ps bs fs : Str) : FoodItem :=
  { name := nm, portionSize := none,
    calories := some (some (digitsToNat cs)),
    protein := some (some (digitsToNat ps)),
    carbs := some (some (digitsToNat bs)),
    fat := some (some (digitsToNat fs)),
    confidence10 := some 8 }

/-- C3 counterexample response: three food items in the claimed format, the
first carrying a literal `0 kcal` value. -/
def mealCexC3 : Str :=
  mkMealText "0".toList "4".toList "45".toList "1".toList
    "210".toList "5".toList "44".toList "2".toList
    "80".toList "6".toList "1".toList "5".toList

set_option maxRecDepth 20000 in
/-- C3 counterexample: a three-item response whose first item carries the
literal value `0 kcal` yields only two sub-records — the zero-calorie item
fails the JS truthiness guard `currentFood.calories` and is dropped, so the
parser does not return exactly three sub-records with the literal
integers. -/
theorem C3_zero_calorie_counterexample :
    (parseGPTAnalysis mealCexC3).length = 2
    ∧ parseGPTAnalysis mealCexC3
        = [mealItem "Rice".toList "210".toList "5".toList "44".toList "2".toList,
           mealItem "Egg".toList "80".toList "6".toList "1".toList "5".toList] := by
  constructor
  · decide
  · decide

/-- C3 (amended): for every three-item nutrition-analysis response in the
canonical format whose calorie values are non-zero, `parseGPTAnalysis`
returns exactly three sub-records, in order of appearance, whose
calories/protein/carbs/fat fields are the literal integers written in the
text.  (The source drops an item whose calorie literal is `0`, which is
what the counterexample exhibits and what forces the non-zero
restriction.) -/
theorem C3_three_items (c1 p1 b1 f1 c2 p2 b2 f2 c3 p3 b3 f3 : Str)
    (h1 : DigitStr c1) (h2 : DigitStr p1) (h3 : DigitStr b1) (h4 : DigitStr f1)
    (h5 : DigitStr c2) (h6 : DigitStr p2) (h7 : DigitStr b2) (h8 : DigitStr f2)
    (h9 : DigitStr c3) (h10 : DigitStr p3) (h11 : DigitStr b3) (h12 : DigitStr f3)
    (hz1 : digitsToNat c1 ≠ 0) (hz2 : digitsToNat c2 ≠ 0)
    (hz3 : digitsToNat c3 ≠ 0) :
    parseGPTAnalysis (mkMealText c1 p1 b1 f1 c2 p2 b2 f2 c3 p3 b3 f3)
      = [mealItem "Apple".toList c1 p1 b1 f1,
         mealItem "Rice".toList c2 p2 b2 f2,
         mealItem "Egg".toList c3 p3 b3 f3] := by
  have hlines : splitNL (mkMealText c1 p1 b1 f1 c2 p2 b2 f2 c3 p3 b3 f3)
      = [foodLineA, nutLine c1 p1 b1 f1, foodLineR, nutLine c2 p2 b2 f2,
         foodLineE, nutLine c3 p3 b3 f3] := by
    unfold mkMealText
    rw [splitNL_line _ _ (by decide),
      splitNL_line _ _ (nutLine_no_nl _ _ _ _ h1 h2 h3 h4),
      splitNL_line _ _ (by decide),
      splitNL_line _ _ (nutLine_no_nl _ _ _ _ h5 h6 h7 h8),
      splitNL_line _ _ (by decide),
      splitNL_last _ (nutLine_no_nl _ _ _ _ h9 h10 h11 h12)]
  have hg1 : (nameTruthy (pendItem "Apple".toList c1 p1 b1 f1)
      && calTruthy (pendItem "Apple".toList c1 p1 b1 f1)
      && (pendItem "Apple".toList c1 p1 b1 f1).protein.isSome) = true := by
    simp [pendItem, nameTruthy, calTruthy, hz1]
  have hg2 : (nameTruthy (pendItem "Rice".toList c2 p2 b2 f2)
      && calTruthy (pendItem "Rice".toList c2 p2 b2 f2)
      && (pendItem "Rice".toList c2 p2 b2 f2).protein.isSome) = true := by
    simp [pendItem, nameTruthy, calTruthy, hz2]
  have hg3 : (nameTruthy (pendItem "Egg".toList c3 p3 b3 f3)
      && calTruthy (pendItem "Egg".toList c3 p3 b3 f3)
      && (pendItem "Egg".toList c3 p3 b3 f3).protein.isSome) = true := by
    simp [pendItem, nameTruthy, calTruthy, hz3]
  have e1 : stepLine ([], ({} : PartialFood)) foodLineA
      = ([], { name := some "Apple".toList }) := by
    rw [stepLine_food ([], ({} : PartialFood)) foodLineA "Apple".toList (by decide)]
    rw [if_neg (by decide)]
    rw [show trim "Apple".toList = "Apple".toList from by decide]
  have e2 : stepLine ([], ({ name := some "Apple".toList } : PartialFood))
        (nutLine c1 p1 b1 f1)
      = ([], pendItem "Apple".toList c1 p1 b1 f1) := by
    rw [stepLine_nut ([], ({ name := some "Apple".toList } : PartialFood))
      (nutLine c1 p1 b1 f1) c1 p1 b1 f1
      (by rw [trim_nutLine]; exact scanFood_nutLine _ _ _ _ h1 h2 h3 h4)
      (by rw [trim_nutLine]; exact scanPortion_nutLine _ _ _ _ h1 h2 h3 h4)
      (by rw [trim_nutLine]; exact scanNut_nutLine _ _ _ _ h1 h2 h3 h4)
      rfl]
    rw [parseIntJS_digits h1, parseIntJS_digits h2, parseIntJS_digits h3,
      parseIntJS_digits h4]
    rfl
  have e3 : stepLine ([], pendItem "Apple".toList c1 p1 b1 f1) foodLineR
      = ([mealItem "Apple".toList c1 p1 b1 f1], { name := some "Rice".toList }) := by
    rw [stepLine_food ([], pendItem "Apple".toList c1 p1 b1 f1) foodLineR "Rice".toList (by decide)]
    rw [if_pos hg1]
    rw [show trim "Rice".toList = "Rice".toList from by decide]
    rw [show toFoodItem (pendItem "Apple".toList c1 p1 b1 f1)
        = mealItem "Apple".toList c1 p1 b1 f1 from rfl]
    simp
  have e4 : stepLine ([mealItem "Apple".toList c1 p1 b1 f1],
        ({ name := some "Rice".toList } : PartialFood)) (nutLine c2 p2 b2 f2)
      = ([mealItem "Apple".toList c1 p1 b1 f1],
         pendItem "Rice".toList c2 p2 b2 f2) := by
    rw [stepLine_nut ([mealItem "Apple".toList c1 p1 b1 f1],
        ({ name := some "Rice".toList } : PartialFood))
      (nutLine c2 p2 b2 f2) c2 p2 b2 f2
      (by rw [trim_nutLine]; exact scanFood_nutLine _ _ _ _ h5 h6 h7 h8)
      (by rw [trim_nutLine]; exact scanPortion_nutLine _ _ _ _ h5 h6 h7 h8)
      (by rw [trim_nutLine]; exact scanNut_nutLine _ _ _ _ h5 h6 h7 h8)
      rfl]
    rw [parseIntJS_digits h5, parseIntJS_digits h6, parseIntJS_digits h7,
      parseIntJS_digits h8]
    rfl
  have e5 : stepLine ([mealItem "Apple".toList c1 p1 b1 f1],
        pendItem "Rice".toList c2 p2 b2 f2) foodLineE
      = ([mealItem "Apple".toList c1 p1 b1 f1,
          mealItem "Rice".toList c2 p2 b2 f2],
         { name := some "Egg".toList }) := by
    rw [stepLine_food ([mealItem "Apple".toList c1 p1 b1 f1], pendItem "Rice".toList c2 p2 b2 f2) foodLineE "Egg".toList (by decide)]
    rw [if_pos hg2]
    rw [show trim "Egg".toList = "Egg".toList from by decide]
    rw [show toFoodItem (pendItem "Rice".toList c2 p2 b2 f2)
        = mealItem "Rice".toList c2 p2 b2 f2 from rfl]
    rfl
  have e6 : stepLine ([mealItem "Apple".toList c1 p1 b1 f1,
        mealItem "Rice".toList c2 p2 b2 f2],
        ({ name := some "Egg".toList } : PartialFood)) (nutLine c3 p3 b3 f3)
      = ([mealItem "Apple".toList c1 p1 b1 f1,
          mealItem "Rice".toList c2 p2 b2 f2],
         pendItem "Egg".toList c3 p3 b3 f3) := by
    rw [stepLine_nut ([mealItem "Apple".toList c1 p1 b1 f1,
        mealItem "Rice".toList c2 p2 b2 f2],
        ({ name := some "Egg".toList } : PartialFood))
      (nutLine c3 p3 b3 f3) c3 p3 b3 f3
      (by rw [trim_nutLine]; exact scanFood_nutLine _ _ _ _ h9 h10 h11 h12)
      (by rw [trim_nutLine]; exact scanPortion_nutLine _ _ _ _ h9 h10 h11 h12)
      (by rw [trim_nutLine]; exact scanNut_nutLine _ _ _ _ h9 h10 h11 h12)
      rfl]
    rw [parseIntJS_digits h9, parseIntJS_digits h10, parseIntJS_digits h11,
      parseIntJS_digits h12]
    rfl
  have hres : (splitNL (mkMealText c1 p1 b1 f1 c2 p2 b2 f2 c3 p3 b3 f3)).foldl
        stepLine ([], {})
      = ([mealItem "Apple".toList c1 p1 b1 f1,
          mealItem "Rice".toList c2 p2 b2 f2],
         pendItem "Egg".toList c3 p3 b3 f3) := by
    rw [hlines]
    simp only [List.foldl_cons, List.foldl_nil]
    rw [e1, e2, e3, e4, e5, e6]
  have hfin : finishParse ([mealItem "Apple".toList c1 p1 b1 f1,
        mealItem "Rice".toList c2 p2 b2 f2],
        pendItem "Egg".toList c3 p3 b3 f3)
      = [mealItem "Apple".toList c1 p1 b1 f1,
         mealItem "Rice".toList c2 p2 b2 f2,
         mealItem "Egg".toList c3 p3 b3 f3] := by
    unfold finishParse
    rw [if_pos hg3]
    rw [show toFoodItem (pendItem "Egg".toList c3 p3 b3 f3)
        = mealItem "Egg".toList c3 p3 b3 f3 from rfl]
    rfl
  unfold parseGPTAnalysis
  rw [hres, hfin]
  rw [if_neg (by simp)]

/-- C3 witness: the example values of the claim. -/
theorem C3_three_items_witness :
    parseGPTAnalysis (mkMealText "210".toList "4".toList "45".toList "1".toList
        "105".toList "2".toList "27".toList "3".toList
        "80".toList "6".toList "9".toList "5".toList)
      = [mealItem "Apple".toList "210".toList "4".toList "45".toList "1".toList,
         mealItem "Rice".toList "105".toList "2".toList "27".toList "3".toList,
         mealItem "Egg".toList "80".toList "6".toList "9".toList "5".toList] :=
  C3_three_items "210".toList "4".toList "45".toList "1".toList
    "105".toList "2".toList "27".toList "3".toList
    "80".toList "6".toList "9".toList "5".toList
    (by decide) (by decide) (by decide) (by decide) (by decide) (by decide)
    (by decide) (by decide) (by decide) (by decide) (by decide) (by decide)
    (by decide) (by decide) (by decide)


/-! ### C5 — session restore (MyDoc.tsx `initializeOrRestoreSession` / `startNewSession`) -/

/-- The `Message` record of MyDoc.tsx (`Date` timestamps abstracted to `Nat`). -/
structure Msg where
  id : Str
  role : Str
  content : Str
  timestamp : Nat
deriving DecidableEq, Repr

/-- The component state and localStorage cells touched by session restore:
`currentSessionId` / `messages` / `isInitialized` React state plus the keys
`myDoc_currentSessionId` (`lsId`) and `myDoc_currentMessages` (`lsMsgs`). -/
structure SessionStore where
  currentSessionId : Option Str
  messages : List Msg
  isInitialized : Bool
  lsId : Option Str
  lsMsgs : Option Str
deriving DecidableEq, Repr

/-- `[0-9a-f]` with the regex `/i` flag (case-insensitive hex digit). -/
def isHexC (c : Char) : Bool :=
  isDigitC c || lowerC c == 'a' || lowerC c == 'b' || lowerC c == 'c'
    || lowerC c == 'd' || lowerC c == 'e' || lowerC c == 'f'

/-- Consume exactly `n` hex digits, returning the rest of the string. -/
def hexRun : Nat → Str → Option Str
  | 0, r => some r
  | _ + 1, [] => none
  | n + 1, c :: r => if isHexC c then hexRun n r else none

/-- Consume a literal dash. -/
def dashChar : Str → Option Str
  | '-' :: r => some r
  | _ => none

/-- Consume the UUID version digit `[1-5]`. -/
def verChar : Str → Option Str
  | c :: r =>
    if c == '1' || c == '2' || c == '3' || c == '4' || c == '5' then some r else none
  | [] => none

/-- Consume the UUID variant digit `[89ab]` (case-insensitive). -/
def varChar : Str → Option Str
  | c :: r =>
    if c == '8' || c == '9' || lowerC c == 'a' || lowerC c == 'b' then some r
    else none
  | [] => none

/-- The anchored UUID test
`/^[0-9a-f]\x7b8\x7d-[0-9a-f]\x7b4\x7d-[1-5][0-9a-f]\x7b3\x7d-[89ab][0-9a-f]\x7b3\x7d-[0-9a-f]\x7b12\x7d$/i`
from `initializeOrRestoreSession`. -/
def isValidUUID (s : Str) : Bool :=
  (do
    let r ← hexRun 8 s
    let r ← dashChar r
    let r ← hexRun 4 r
    let r ← dashChar r
    let r ← verChar r
    let r ← hexRun 3 r
    let r ← dashChar r
    let r ← varChar r
    let r ← hexRun 3 r
    let r ← dashChar r
    let r ← hexRun 12 r
    match r with
    | [] => some ()
    | _ :: _ => none) == some ()

/-- The synthetic greeting content created by `startNewSession`. -/
def greetingText : Str :=
  "Hello! I\x27m MedMind AI, your personal health assistant. I have access to your medical profile and I\x27m here to help you with any health-related questions or concerns. You can describe your symptoms, upload medical reports, or ask any health questions. How can I assist you today? ✨".toList

/-- The one-element message list built by `startNewSession` (fresh message id
and clock value passed in). -/
def greetingMessages (gid : Str) (now : Nat) : List Msg :=
  [{ id := gid, role := "assistant".toList, content := greetingText, timestamp := now }]

/-- `startNewSession` (MyDoc.tsx 279-294): install a fresh session id and the
one greeting message, mark initialized, and rewrite both localStorage keys.
The `uuidv4()` draws and the clock are parameters; `encode` stands for
`JSON.stringify`. -/
def startNewSession (encode : List Msg → Str) (newId gid : Str) (now : Nat)
    (st : SessionStore) : SessionStore :=
  { st with
    currentSessionId := some newId
    messages := greetingMessages gid now
    isInitialized := true
    lsId := some newId
    lsMsgs := some (encode (greetingMessages gid now)) }

/-- The per-message revival `\x7b...msg, timestamp: new Date(msg.timestamp)\x7d`,
with the `Date` constructor abstracted as `reviveDate`. -/
def reviveMsg (reviveDate : Nat → Nat) (m : Msg) : Msg :=
  { m with timestamp := reviveDate m.timestamp }

/-- The two `localStorage.removeItem` calls clearing the saved session. -/
def clearSavedSession (st : SessionStore) : SessionStore :=
  { st with lsId := none, lsMsgs := none }

/-- `initializeOrRestoreSession` (MyDoc.tsx 237-277).  `parse` stands for the
body of the `try` up to the revival map: `JSON.parse` on the stored string
followed by `.map` — `Except.error` covers both a JSON parse failure and a
parse result that is not an array (`.map` throwing); both are caught by the
`catch`, which clears the stored keys and falls through to
`startNewSession`.  The result type is `Except` so that an exception
escaping to the caller would be visible as `Except.error`. -/
def initializeOrRestoreSession (parse : Str → Except Unit (List Msg))
    (reviveDate : Nat → Nat) (encode : List Msg → Str)
    (newId gid : Str) (now : Nat) (st : SessionStore) :
    Except Unit SessionStore :=
  match st.lsId, st.lsMsgs with
  | some savedSessionId, some savedMessages =>
    if savedSessionId.isEmpty || savedMessages.isEmpty then
      Except.ok (startNewSession encode newId gid now st)
    else if !isValidUUID savedSessionId then
      Except.ok (startNewSession encode newId gid now (clearSavedSession st))
    else
      match parse savedMessages with
      | Except.ok parsedMessages =>
        Except.ok { st with
          currentSessionId := some savedSessionId
          messages := parsedMessages.map (reviveMsg reviveDate)
          isInitialized := true }
      | Except.error _ =>
        Except.ok (startNewSession encode newId gid now (clearSavedSession st))
  | _, _ => Except.ok (startNewSession encode newId gid now st)

/-- C5: for every content of the two localStorage keys — including malformed
session identifiers and corrupt or unparsable stored JSON — session restore
returns normally (never `Except.error`) and leaves the store initialized
with either the restored session or a fresh session holding exactly the one
synthetic greeting message. -/
theorem C5_restore_self_healing (parse : Str → Except Unit (List Msg))
    (reviveDate : Nat → Nat) (encode : List Msg → Str)
    (newId gid : Str) (now : Nat) (st : SessionStore) :
    ∃ st2, initializeOrRestoreSession parse reviveDate encode newId gid now st
        = Except.ok st2 ∧
      st2.isInitialized = true ∧
      (st2.messages = greetingMessages gid now ∨
       ∃ sid raw msgs, st.lsId = some sid ∧ st.lsMsgs = some raw ∧
         isValidUUID sid = true ∧ parse raw = Except.ok msgs ∧
         st2.currentSessionId = some sid ∧
         st2.messages = msgs.map (reviveMsg reviveDate)) := by
  obtain ⟨csid, msgs0, init0, lsId0, lsMsgs0⟩ := st
  cases lsId0 with
  | none =>
    exact ⟨_, rfl, rfl, Or.inl rfl⟩
  | some sid =>
    cases lsMsgs0 with
    | none => exact ⟨_, rfl, rfl, Or.inl rfl⟩
    | some raw =>
      show ∃ st2,
        (if sid.isEmpty || raw.isEmpty then _
         else if !isValidUUID sid then _ else _) = Except.ok st2 ∧ _
      by_cases hE : (sid.isEmpty || raw.isEmpty) = true
      · rw [if_pos hE]
        exact ⟨_, rfl, rfl, Or.inl rfl⟩
      · rw [if_neg hE]
        by_cases hU : isValidUUID sid = true
        · rw [if_neg (by simp [hU])]
          cases hp : parse raw with
          | ok msgs =>
            exact ⟨_, rfl, rfl,
              Or.inr ⟨sid, raw, msgs, rfl, rfl, hU, hp, rfl, rfl⟩⟩
          | error e =>
            exact ⟨_, rfl, rfl, Or.inl rfl⟩
        · rw [if_pos (by simp [Bool.not_eq_true] at hU ⊢; exact hU)]
          exact ⟨_, rfl, rfl, Or.inl rfl⟩


/-! ### C6 — persistence guards (MyDoc.tsx `saveChatHistory` / `saveCurrentSession`
and the debounced auto-save effect) -/

/-- The `ChatSession` record of MyDoc.tsx. -/
structure ChatSession where
  id : Str
  title : Str
  messages : List Msg
  createdAt : Nat
  updatedAt : Nat
deriving DecidableEq, Repr

/-- A durable `chat_sessions` row as written by the Supabase upsert. -/
structure DbRow where
  id : Str
  title : Str
  messages : List Msg
  updatedAt : Nat
deriving DecidableEq, Repr

/-- Upsert keyed on the row id: replace in place or append. -/
def upsertRow (row : DbRow) : List DbRow → List DbRow
  | [] => [row]
  | r :: rest => if r.id == row.id then row :: rest else r :: upsertRow row rest

/-- `generateSessionTitle` (MyDoc.tsx 330-337): first user message truncated
to 50 characters with an ellipsis, else `Chat` plus the current date. -/
def generateSessionTitle (today : Str) (messages : List Msg) : Str :=
  match messages.find? (fun m => m.role == "user".toList) with
  | some userMessage =>
    if (userMessage.content.take 50).length < userMessage.content.length
    then userMessage.content.take 50 ++ "...".toList
    else userMessage.content.take 50
  | none => "Chat ".toList ++ today

/-- `saveChatHistory` (MyDoc.tsx 209-235): with a logged-in user, find the
current session in the passed list and upsert it into `chat_sessions` only
when it has more than one message. -/
def saveChatHistory (userPresent : Bool) (currentSessionId : Option Str)
    (now : Nat) (sessions : List ChatSession) (db : List DbRow) : List DbRow :=
  if !userPresent then db
  else
    match currentSessionId.bind (fun sid => sessions.find? (fun s => s.id == sid)) with
    | some currentSession =>
      if currentSession.messages.length > 1 then
        upsertRow { id := currentSession.id, title := currentSession.title,
                    messages := currentSession.messages, updatedAt := now } db
      else db
    | none => db

/-- The component state read by `saveCurrentSession`. -/
structure ChatState where
  currentSessionId : Option Str
  messages : List Msg
  isInitialized : Bool
  chatSessions : List ChatSession
deriving DecidableEq, Repr

/-- JS truthiness of the `string | null` session id (null and the empty
string are falsy). -/
def truthyId : Option Str → Bool
  | none => false
  | some s => !s.isEmpty

/-- `updatedSessions[existingIndex] = newSession` after a successful
`findIndex` on the session id. -/
def replaceSession (ns : ChatSession) : List ChatSession → List ChatSession
  | [] => []
  | s :: rest => if s.id == ns.id then ns :: rest else s :: replaceSession ns rest

/-- The `setChatSessions` updater body: replace in place when `findIndex`
succeeds, else prepend the new session. -/
def upsertSessions (ns : ChatSession) (prev : List ChatSession) : List ChatSession :=
  if prev.any (fun s => s.id == ns.id) then replaceSession ns prev
  else ns :: prev

/-- `saveCurrentSession` (MyDoc.tsx 296-320): no-op unless the session id is
truthy and more than one message is held; otherwise build the session
record, upsert it into `chatSessions`, and pass the updated list to
`saveChatHistory`. -/
def saveCurrentSession (userPresent : Bool) (today : Str) (now : Nat)
    (st : ChatState) (db : List DbRow) : ChatState × List DbRow :=
  match st.currentSessionId with
  | none => (st, db)
  | some sid =>
    if sid.isEmpty then (st, db)
    else if st.messages.length ≤ 1 then (st, db)
    else
      let newSession : ChatSession :=
        { id := sid
          title := generateSessionTitle today st.messages
          messages := st.messages
          createdAt := ((st.messages.head?).map Msg.timestamp).getD now
          updatedAt := now }
      let updated := upsertSessions newSession st.chatSessions
      ({ st with chatSessions := updated },
       saveChatHistory userPresent (some sid) now updated db)

/-- Guard of the debounced auto-save effect (MyDoc.tsx 134-142). -/
def autoSaveGuard (st : ChatState) : Bool :=
  truthyId st.currentSessionId && decide (st.messages.length > 1) && st.isInitialized

/-- A debounce world: component state, the pending `setTimeout` deadline in
milliseconds, and durable storage. -/
structure SaveWorld where
  st : ChatState
  deadline : Option Nat
  db : List DbRow
deriving DecidableEq, Repr

/-- Events of the auto-save effect: a message append at time `t` (the effect
cleanup clears any previous timeout and, when the guard holds, schedules
`saveCurrentSession` at `t + 1000`), and the timeout firing at time `t`. -/
inductive SaveEv
  | append (m : Msg) (t : Nat)
  | fire (t : Nat)

/-- One step of the debounced auto-save machine. -/
def stepSave (userPresent : Bool) (today : Str) : SaveWorld → SaveEv → SaveWorld
  | w, .append m t =>
    { st := { w.st with messages := w.st.messages ++ [m] }
      deadline :=
        if autoSaveGuard { w.st with messages := w.st.messages ++ [m] }
        then some (t + 1000) else none
      db := w.db }
  | w, .fire t =>
    match w.deadline with
    | some d =>
      if d ≤ t then
        { st := (saveCurrentSession userPresent today t w.st w.db).1
          deadline := none
          db := (saveCurrentSession userPresent today t w.st w.db).2 }
      else w
    | none => w

theorem replaceSession_find (ns : ChatSession) (l : List ChatSession)
    (h : l.any (fun s => s.id == ns.id) = true) :
    (replaceSession ns l).find? (fun s => s.id == ns.id) = some ns := by
  induction l with
  | nil => simp at h
  | cons s rest ih =>
    simp only [replaceSession]
    by_cases hs : (s.id == ns.id) = true
    · rw [if_pos hs]
      exact List.find?_cons_of_pos _ (beq_self_eq_true ns.id)
    · rw [if_neg hs]
      have h2 : rest.any (fun s => s.id == ns.id) = true := by
        rcases List.any_eq_true.mp h with ⟨a, ha, hpa⟩
        rcases List.mem_cons.mp ha with rfl | ha2
        · exact absurd hpa hs
        · exact List.any_eq_true.mpr ⟨a, ha2, hpa⟩
      rw [List.find?_cons_of_neg _ (by simpa using hs)]
      exact ih h2

theorem upsertSessions_find (ns : ChatSession) (l : List ChatSession) :
    (upsertSessions ns l).find? (fun s => s.id == ns.id) = some ns := by
  unfold upsertSessions
  by_cases h : l.any (fun s => s.id == ns.id) = true
  · rw [if_pos h]; exact replaceSession_find ns l h
  · rw [if_neg h]; exact List.find?_cons_of_pos _ (beq_self_eq_true ns.id)

theorem upsertRow_self_mem (row : DbRow) (db : List DbRow) :
    row ∈ upsertRow row db := by
  induction db with
  | nil => simp [upsertRow]
  | cons r rest ih =>
    simp only [upsertRow]
    by_cases h : (r.id == row.id) = true
    · rw [if_pos h]; exact List.mem_cons_self _ _
    · rw [if_neg h]; exact List.mem_cons_of_mem _ ih

/-- The session record built by `saveCurrentSession` for id `sid` from the
current messages. -/
def pendingSession (today : Str) (now : Nat) (sid : Str) (msgs : List Msg) :
    ChatSession :=
  { id := sid
    title := generateSessionTitle today msgs
    messages := msgs
    createdAt := ((msgs.head?).map Msg.timestamp).getD now
    updatedAt := now }

/-- C6: (1) `saveCurrentSession` is a no-op for a session holding at most one
message; (2) `saveChatHistory` leaves durable storage unchanged when the
current session holds at most one message; (3) a logged-in append that makes
the message count at least two schedules the auto-save exactly one debounce
interval (1000 ms) later, and when that timeout fires the session — with the
appended message — has been upserted into durable storage. -/
theorem C6_persistence_guard :
    (∀ (up : Bool) (today : Str) (now : Nat) (st : ChatState) (db : List DbRow),
       st.messages.length ≤ 1 →
       saveCurrentSession up today now st db = (st, db)) ∧
    (∀ (up : Bool) (sid : Str) (now : Nat) (sessions : List ChatSession)
       (db : List DbRow),
       (∀ s ∈ sessions, s.id = sid → s.messages.length ≤ 1) →
       saveChatHistory up (some sid) now sessions db = db) ∧
    (∀ (today : Str) (w : SaveWorld) (m : Msg) (t : Nat) (sid : Str),
       w.st.currentSessionId = some sid →
       autoSaveGuard { w.st with messages := w.st.messages ++ [m] } = true →
       (stepSave true today w (SaveEv.append m t)).deadline = some (t + 1000) ∧
       ∃ row ∈ (stepSave true today (stepSave true today w (SaveEv.append m t))
                  (SaveEv.fire (t + 1000))).db,
         row.id = sid ∧ row.messages = w.st.messages ++ [m]) := by
  refine ⟨?_, ?_, ?_⟩
  · intro up today now st db hle
    obtain ⟨cs, msgs, ini, chs⟩ := st
    cases cs with
    | none => rfl
    | some sid =>
      show (if sid.isEmpty then _ else if msgs.length ≤ 1 then _ else _) = _
      by_cases hE : sid.isEmpty = true
      · rw [if_pos hE]
      · rw [if_neg hE, if_pos hle]
  · intro up sid now sessions db hall
    unfold saveChatHistory
    cases up with
    | false => rfl
    | true =>
      rw [if_neg (by simp)]
      show (match (sessions.find? (fun s => s.id == sid)) with
            | some currentSession => _
            | none => db) = db
      cases hf : sessions.find? (fun s => s.id == sid) with
      | none => rfl
      | some s =>
        have hps : (fun x => x.id == sid) s = true :=
          @List.find?_some _ (fun x => x.id == sid) s sessions hf
        have hid : s.id = sid := eq_of_beq (show (s.id == sid) = true from hps)
        have hle := hall s (List.mem_of_find?_eq_some hf) hid
        simp only []
        rw [if_neg (by omega)]
  · intro today w m t sid hsid hg
    obtain ⟨⟨cs, msgs, ini, chs⟩, dl, wdb⟩ := w
    have hcs : cs = some sid := hsid
    subst hcs
    have hg2 : (truthyId (some sid) && decide ((msgs ++ [m]).length > 1) && ini)
        = true := hg
    simp only [Bool.and_eq_true, decide_eq_true_eq] at hg2
    obtain ⟨⟨htruthy, hlen⟩, hini⟩ := hg2
    have hne : sid.isEmpty = false := by simpa [truthyId] using htruthy
    have hw1 : stepSave true today ⟨⟨some sid, msgs, ini, chs⟩, dl, wdb⟩
        (SaveEv.append m t)
        = ⟨⟨some sid, msgs ++ [m], ini, chs⟩, some (t + 1000), wdb⟩ := by
      simp only [stepSave]
      rw [if_pos hg]
    refine ⟨by rw [hw1], ?_⟩
    rw [hw1]
    have hsave : saveCurrentSession true today (t + 1000)
        ⟨some sid, msgs ++ [m], ini, chs⟩ wdb
        = (⟨some sid, msgs ++ [m], ini,
            upsertSessions (pendingSession today (t + 1000) sid (msgs ++ [m])) chs⟩,
           saveChatHistory true (some sid) (t + 1000)
             (upsertSessions (pendingSession today (t + 1000) sid (msgs ++ [m])) chs)
             wdb) := by
      show (if sid.isEmpty then _
            else if (msgs ++ [m]).length ≤ 1 then _ else _) = _
      rw [if_neg (by simp [hne]), if_neg (by omega)]
      rfl
    have hfind : (upsertSessions (pendingSession today (t + 1000) sid (msgs ++ [m]))
          chs).find? (fun s => s.id == sid)
        = some (pendingSession today (t + 1000) sid (msgs ++ [m])) :=
      upsertSessions_find (pendingSession today (t + 1000) sid (msgs ++ [m])) chs
    simp only [stepSave]
    rw [if_pos (le_refl (t + 1000))]
    simp only []
    rw [hsave]
    simp only []
    unfold saveChatHistory
    rw [if_neg (by simp)]
    show ∃ row ∈ (match (upsertSessions (pendingSession today (t + 1000) sid
            (msgs ++ [m])) chs).find? (fun s => s.id == sid) with
          | some currentSession =>
            if currentSession.messages.length > 1 then
              upsertRow { id := currentSession.id, title := currentSession.title,
                          messages := currentSession.messages,
                          updatedAt := t + 1000 } wdb
            else wdb
          | none => wdb), row.id = sid ∧ row.messages = msgs ++ [m]
    rw [hfind]
    simp only []
    rw [if_pos (show (pendingSession today (t + 1000) sid (msgs ++ [m])).messages.length > 1
        from hlen)]
    exact ⟨_, upsertRow_self_mem _ _, rfl, rfl⟩


/-- Concrete greeting-style first message for the C6 witness world. -/
def msgW0 : Msg :=
  { id := "m0".toList, role := "assistant".toList, content := "hi".toList,
    timestamp := 5 }

/-- Concrete appended user message for the C6 witness world. -/
def msgW1 : Msg :=
  { id := "m1".toList, role := "user".toList, content := "hello".toList,
    timestamp := 6 }

/-- Concrete debounce world for the C6 witness: one greeting message, empty
durable storage. -/
def worldW : SaveWorld :=
  { st := { currentSessionId := some "abc".toList, messages := [msgW0],
            isInitialized := true, chatSessions := [] }
    deadline := none
    db := [] }

/-- C6 witness: appending a second message at time 0 schedules the save at
1000 ms, and firing the timeout then has upserted the two-message session. -/
theorem C6_persistence_guard_witness :
    (stepSave true "d".toList worldW (SaveEv.append msgW1 0)).deadline
      = some (0 + 1000) ∧
    ∃ row ∈ (stepSave true "d".toList
        (stepSave true "d".toList worldW (SaveEv.append msgW1 0))
        (SaveEv.fire (0 + 1000))).db,
      row.id = "abc".toList ∧ row.messages = worldW.st.messages ++ [msgW1] :=
  C6_persistence_guard.2.2 "d".toList worldW msgW1 0 "abc".toList rfl (by decide)

/-! ### C7 — send-transcript fallback (part_003 `sendTranscript` /
`transcribeWithWhisper`) -/

/-- The state read by `sendTranscript`: the frozen and edited transcripts,
the captured raw audio chunk sizes (`audioChunksRef.current`), and the
detected language. -/
structure VrSendState where
  editedTranscript : Str
  completeTranscript : Str
  audioChunks : List Nat
  detectedLanguage : Str
deriving DecidableEq, Repr

/-- Observable outcome of one `sendTranscript` run: the text handed to
`onTranscriptionComplete`, the text appended to the conversation history,
whether `transcribeWithWhisper` was entered, whether
`setTimeout(resetRecorder, 500)` was queued, whether `resetRecorder()` ran
directly, the last `setError` argument (`[]` when untouched), and the final
`isTranscribing` flag. -/
structure SendOutcome where
  sentText : Option Str
  historyAppended : Option Str
  whisperInvoked : Bool
  resetScheduled : Bool
  resetNow : Bool
  errorMsg : Str
  isTranscribing : Bool
deriving DecidableEq, Repr

/-- Result of resolving a JavaScript identifier at a use site: either a bound
value, or a `ReferenceError` thrown on evaluation. -/
inductive NameLookup (α : Type) where
  | bound (a : α)
  | refErrorThrown

/-- Resolution of the identifier `audioBlob` at its use site inside
`sendTranscript` (part_003 line 583): the name occurs in the file only at
that use site and as the parameter of `transcribeWithWhisper`, so it is
unbound in every enclosing scope of the call and evaluating it throws a
`ReferenceError`. -/
def audioBlobVar : NameLookup (List Nat) := NameLookup.refErrorThrown

/-- `const textToSend = editedTranscript.trim() || completeTranscript.trim()`. -/
def textToSend (st : VrSendState) : Str :=
  if !(trim st.editedTranscript).isEmpty then trim st.editedTranscript
  else trim st.completeTranscript

/-- `sendTranscript` (part_003 560-594).  `whisper` models the effects of a
completed `transcribeWithWhisper` call (it catches all of its own errors).
In the middle branch the `setTimeout(resetRecorder, 500)` statement and
`setIsTranscribing(true)` run before the `try`; evaluating the unbound
`audioBlob` then throws, and the `catch` sets the error message and clears
`isTranscribing`. -/
def sendTranscript (whisper : List Nat → Str → SendOutcome)
    (st : VrSendState) : SendOutcome :=
  if !(textToSend st).isEmpty then
    { sentText := some (textToSend st)
      historyAppended := some (textToSend st)
      whisperInvoked := false
      resetScheduled := true
      resetNow := false
      errorMsg := []
      isTranscribing := false }
  else if st.audioChunks.length > 0 then
    match audioBlobVar with
    | NameLookup.bound blob =>
      { whisper blob st.detectedLanguage with
        whisperInvoked := true
        resetScheduled := true
        isTranscribing := true }
    | NameLookup.refErrorThrown =>
      { sentText := none
        historyAppended := none
        whisperInvoked := false
        resetScheduled := true
        resetNow := false
        errorMsg := "Failed to transcribe audio. Please try again.".toList
        isTranscribing := false }
  else
    { sentText := none
      historyAppended := none
      whisperInvoked := false
      resetScheduled := false
      resetNow := true
      errorMsg := "No audio recorded. Please try again.".toList
      isTranscribing := false }

/-- C7 (code bug): in the Reviewing state with an empty frozen and edited
transcript but captured audio chunks, `sendTranscript` never reaches
`transcribeWithWhisper`: the identifier `audioBlob` at the call site is
unbound, so the attempted call throws a `ReferenceError` that the
surrounding `catch` converts into the transcription-failure error message.
The captured audio is not queued for fallback transcription, contradicting
the specified behavior. -/
theorem C7_fallback_transcription_dead (whisper : List Nat → Str → SendOutcome)
    (st : VrSendState)
    (hEdited : trim st.editedTranscript = [])
    (hComplete : trim st.completeTranscript = [])
    (hChunks : st.audioChunks.length > 0) :
    (sendTranscript whisper st).whisperInvoked = false ∧
    (sendTranscript whisper st).errorMsg
      = "Failed to transcribe audio. Please try again.".toList := by
  have hT : textToSend st = [] := by
    unfold textToSend
    rw [hEdited, hComplete]
    rfl
  unfold sendTranscript
  rw [hT]
  rw [if_neg (by decide)]
  rw [if_pos hChunks]
  exact ⟨rfl, rfl⟩

/-- An arbitrary concrete `transcribeWithWhisper` effect model for the C7
witness. -/
def whisperW : List Nat → Str → SendOutcome := fun _ _ =>
  { sentText := none
    historyAppended := none
    whisperInvoked := false
    resetScheduled := false
    resetNow := false
    errorMsg := []
    isTranscribing := false }

/-- Concrete failing input for C7: empty transcripts, one captured chunk. -/
def sendStateW : VrSendState :=
  { editedTranscript := [], completeTranscript := " ".toList,
    audioChunks := [2048], detectedLanguage := "en".toList }

/-- C7 witness: on the concrete failing input the fallback transcription is
never invoked and the failure message is set. -/
theorem C7_fallback_transcription_dead_witness :
    (sendTranscript whisperW sendStateW).whisperInvoked = false ∧
    (sendTranscript whisperW sendStateW).errorMsg
      = "Failed to transcribe audio. Please try again.".toList :=
  C7_fallback_transcription_dead whisperW sendStateW (by decide) (by decide)
    (by decide)


/-! ### C8 — voice-capture resource release (part_003 `startRecording` /
`stopRecording` / `resetRecorder` and the recognition handlers) -/

/-- The `RecordingState` union of part_003: `START` (idle), `STOP`
(recording; the button offers stop), `REVIEW`, `EDIT`. -/
inductive RMode
  | start
  | stop
  | review
  | edit
deriving DecidableEq, Repr

/-- The recorder machine: mode plus the capture resources (media-stream
tracks, `AudioContext`, duration timer, `MediaRecorder`, speech
recognition) and the error banner. -/
structure VrMachine where
  mode : RMode
  streamOpen : Bool
  ctxOpen : Bool
  timerOn : Bool
  hasRecorder : Bool
  recognitionOn : Bool
  errorMsg : Str
deriving DecidableEq, Repr

/-- `startRecording` (part_003 366-502): on a granted microphone the stream,
audio context, timer, recorder and recognition are all acquired and the
mode becomes Recording; if `getUserMedia` rejects (the first acquisition),
the `catch` sets the error banner and nothing was acquired. -/
def startRecording (micGranted : Bool) (s : VrMachine) : VrMachine :=
  if micGranted then
    { s with
      mode := RMode.stop
      streamOpen := true
      ctxOpen := true
      timerOn := true
      hasRecorder := true
      recognitionOn := true
      errorMsg := [] }
  else
    { s with errorMsg :=
        "Microphone access denied. Please allow microphone permissions.".toList }

/-- `stopRecording` (part_003 506-535): guarded by
`mediaRecorderRef.current && recordingState === STOP`; stops the recorder
and recognition, stops every stream track, closes the audio context, clears
the duration timer, and moves to Review. -/
def stopRecording (s : VrMachine) : VrMachine :=
  if s.hasRecorder && decide (s.mode = RMode.stop) then
    { s with
      mode := RMode.review
      streamOpen := false
      ctxOpen := false
      timerOn := false
      recognitionOn := false }
  else s

/-- `resetRecorder` (part_003 635-652): back to idle, error cleared, timer
cleared — tracks and audio context are NOT touched here. -/
def resetRecorder (s : VrMachine) : VrMachine :=
  { s with
    mode := RMode.start
    timerOn := false
    errorMsg := [] }

/-- The user/event actions that can change `recordingState`.  `buttonClick`
is `handleButtonClick` (part_003 676-692) with the `getUserMedia` outcome;
`editClick` is the edit button, rendered only in Review (line 787);
`saveClick` / `cancelClick` are rendered only in Review or Edit (line 863);
`recogError` / `recogEnded` are the speech-recognition handlers. -/
inductive VrAct
  | buttonClick (micGranted : Bool)
  | editClick
  | saveClick
  | cancelClick
  | recogError (msg : Str)
  | recogEnded

/-- One step of the recorder machine.  Every `sendTranscript` path from
Review either stays in Review or ends in `resetRecorder`, so the Review
click is modelled by `resetRecorder`; the recognition `onerror` handler
ignores `no-speech` and `aborted` and otherwise only sets the error banner,
never changing the mode; `onend` restarts recognition while recording. -/
def stepVoice : VrAct → VrMachine → VrMachine
  | VrAct.buttonClick micGranted, s =>
    match s.mode with
    | RMode.start => startRecording micGranted s
    | RMode.stop => stopRecording s
    | RMode.review => resetRecorder s
    | RMode.edit => s
  | VrAct.editClick, s =>
    if s.mode = RMode.review then { s with mode := RMode.edit } else s
  | VrAct.saveClick, s =>
    if s.mode = RMode.review ∨ s.mode = RMode.edit then
      { s with mode := RMode.review }
    else s
  | VrAct.cancelClick, s =>
    if s.mode = RMode.review ∨ s.mode = RMode.edit then
      { s with mode := RMode.review }
    else s
  | VrAct.recogError msg, s =>
    if msg == "no-speech".toList || msg == "aborted".toList then s
    else { s with errorMsg := "Speech recognition error: ".toList ++ msg }
  | VrAct.recogEnded, s => s

/-- C8: on every action that leaves the Recording mode, all capture
resources have been released — tracks stopped, audio context closed, timer
cleared; the machine never exits Recording while still holding an open
media stream. -/
theorem C8_recording_exit_releases (s : VrMachine) (a : VrAct)
    (hRec : s.mode = RMode.stop)
    (hExit : (stepVoice a s).mode ≠ RMode.stop) :
    (stepVoice a s).streamOpen = false ∧
    (stepVoice a s).ctxOpen = false ∧
    (stepVoice a s).timerOn = false := by
  obtain ⟨m0, so, co, ti, hr, rc, er⟩ := s
  have hm : m0 = RMode.stop := hRec
  subst hm
  cases a with
  | buttonClick g =>
    cases hr with
    | true => exact ⟨rfl, rfl, rfl⟩
    | false => exact absurd rfl hExit
  | editClick => exact absurd rfl hExit
  | saveClick => exact absurd rfl hExit
  | cancelClick => exact absurd rfl hExit
  | recogError msg =>
    exfalso
    apply hExit
    simp only [stepVoice]
    by_cases h : (msg == "no-speech".toList || msg == "aborted".toList) = true
    · rw [if_pos h]
    · rw [if_neg h]
  | recogEnded => exact absurd rfl hExit

/-- A concrete mid-recording machine for the C8 witness: all resources
held. -/
def vrMachineW : VrMachine :=
  { mode := RMode.stop
    streamOpen := true
    ctxOpen := true
    timerOn := true
    hasRecorder := true
    recognitionOn := true
    errorMsg := [] }

/-- C8 witness: clicking stop on a live recording leaves Recording with
every resource released. -/
theorem C8_recording_exit_releases_witness :
    (stepVoice (VrAct.buttonClick true) vrMachineW).streamOpen = false ∧
    (stepVoice (VrAct.buttonClick true) vrMachineW).ctxOpen = false ∧
    (stepVoice (VrAct.buttonClick true) vrMachineW).timerOn = false :=
  C8_recording_exit_releases vrMachineW (VrAct.buttonClick true) rfl (by decide)

/-! ### C10 — conversation-history token cap (part_003
`addToConversationHistory` / `summarizeConversation`) -/

/-- The `ConversationMessage` record of part_003. -/
structure ConversationMessage where
  role : Str
  content : Str
  timestamp : Nat
  language : Option Str
deriving DecidableEq, Repr

/-- JS `array.join(' ')`. -/
def joinSpace : List Str → Str
  | [] => []
  | [s] => s
  | s :: t :: rest => s ++ ' ' :: joinSpace (t :: rest)

/-- `estimateTokens` (part_003 288-291):
`Math.ceil(messages.map(m => m.content).join(' ').length / 4)`. -/
def estimateTokens (messages : List ConversationMessage) : Nat :=
  ((joinSpace (messages.map (fun m => m.content))).length + 3) / 4

/-- The summary-content template of `summarizeConversation`. -/
def summaryContent (n : Nat) : Str :=
  "[Previous conversation summary: User discussed ".toList
    ++ (Nat.repr n).toList
    ++ " health concerns with AI responses. Key topics covered in earlier conversation.]".toList

/-- The synthetic summary message built from the older messages. -/
def summaryMessage (now : Nat) (olderMessages : List ConversationMessage) :
    ConversationMessage :=
  { role := "assistant".toList
    content := summaryContent
        ((olderMessages.filter (fun m => m.role == "user".toList)).length)
    timestamp := ((olderMessages.head?).map (fun m => m.timestamp)).getD now
    language := some "en".toList }

/-- `summarizeConversation` (part_003 317-337): unchanged at up to 15
messages, else one summary of the older messages followed by the last 15. -/
def summarizeConversation (now : Nat) (messages : List ConversationMessage) :
    List ConversationMessage :=
  if messages.length ≤ 15 then messages
  else
    summaryMessage now (messages.take (messages.length - 15))
      :: messages.drop (messages.length - 15)

/-- The message record built by `addToConversationHistory`. -/
def newConvMessage (now : Nat) (role content : Str) (language : Option Str) :
    ConversationMessage :=
  { role := role, content := content, timestamp := now, language := language }

/-- `const updated = [...prev, newMessage]`. -/
def updatedHistory (now : Nat) (role content : Str) (language : Option Str)
    (prev : List ConversationMessage) : List ConversationMessage :=
  prev ++ [newConvMessage now role content language]

/-- `addToConversationHistory` (part_003 294-314): append, then summarize
when the estimated token count exceeds 8000. -/
def addToConversationHistory (now : Nat) (role content : Str)
    (language : Option Str) (prev : List ConversationMessage) :
    List ConversationMessage :=
  if estimateTokens (updatedHistory now role content language prev) > 8000 then
    summarizeConversation now (updatedHistory now role content language prev)
  else updatedHistory now role content language prev

/-- C10: when the append pushes the token estimate over 8000 and the history
then holds more than 15 messages, the stored history becomes exactly one
synthetic summary message followed by the 15 most recent messages in order;
in every other case the append leaves the previous messages unchanged and
adds the new message at the end. -/
theorem C10_token_summarization (now : Nat) (role content : Str)
    (language : Option Str) (prev : List ConversationMessage) :
    (estimateTokens (updatedHistory now role content language prev) > 8000 ∧
       (updatedHistory now role content language prev).length > 15 →
     addToConversationHistory now role content language prev
       = summaryMessage now ((updatedHistory now role content language prev).take
             ((updatedHistory now role content language prev).length - 15))
         :: (updatedHistory now role content language prev).drop
             ((updatedHistory now role content language prev).length - 15)) ∧
    (¬(estimateTokens (updatedHistory now role content language prev) > 8000 ∧
       (updatedHistory now role content language prev).length > 15) →
     addToConversationHistory now role content language prev
       = updatedHistory now role content language prev) := by
  constructor
  · rintro ⟨htok, hlen⟩
    unfold addToConversationHistory
    rw [if_pos htok]
    unfold summarizeConversation
    rw [if_neg (by omega)]
  · intro hn
    unfold addToConversationHistory
    by_cases htok :
        estimateTokens (updatedHistory now role content language prev) > 8000
    · rw [if_pos htok]
      have hlen : ¬((updatedHistory now role content language prev).length > 15) :=
        fun hl => hn ⟨htok, hl⟩
      unfold summarizeConversation
      rw [if_pos (by omega)]
    · rw [if_neg htok]

theorem joinSpace_cons2 (s t : Str) (r : List Str) :
    joinSpace (s :: t :: r) = s ++ ' ' :: joinSpace (t :: r) := rfl

theorem joinSpace_length (l : List Str) :
    (joinSpace l).length = (l.map List.length).sum + (l.length - 1) := by
  induction l with
  | nil => rfl
  | cons s rest ih =>
    cases rest with
    | nil => simp [joinSpace]
    | cons t r2 =>
      rw [joinSpace_cons2]
      simp only [List.length_append, List.length_cons, ih, List.map_cons,
        List.sum_cons, List.length_map]
      omega

/-- Long concrete content (2100 characters) for the C10 witness. -/
def bigContentW : Str := List.replicate 2100 'x'

/-- A long user message for the C10 witness. -/
def bigMsgW : ConversationMessage :=
  { role := "user".toList, content := bigContentW, timestamp := 1,
    language := none }

/-- Fifteen long messages already stored, for the C10 witness. -/
def prevW : List ConversationMessage := List.replicate 15 bigMsgW

/-- Unfolding lemma for `estimateTokens` (kept generic so concrete uses
never force evaluation of long lists). -/
theorem estimateTokens_eq (l : List ConversationMessage) :
    estimateTokens l
      = ((joinSpace (l.map (fun m => m.content))).length + 3) / 4 := rfl

/-- C10 witness: a sixteenth long message pushes the estimate past 8000
tokens and the history is summarized to one summary plus the last 15. -/
theorem C10_token_summarization_witness :
    estimateTokens (updatedHistory 2 "user".toList bigContentW none prevW) > 8000 ∧
    (updatedHistory 2 "user".toList bigContentW none prevW).length > 15 ∧
    addToConversationHistory 2 "user".toList bigContentW none prevW
      = summaryMessage 2 ((updatedHistory 2 "user".toList bigContentW none prevW).take
            ((updatedHistory 2 "user".toList bigContentW none prevW).length - 15))
        :: (updatedHistory 2 "user".toList bigContentW none prevW).drop
            ((updatedHistory 2 "user".toList bigContentW none prevW).length - 15) := by
  have hmap : (updatedHistory 2 "user".toList bigContentW none prevW).map
      (fun m => m.content) = List.replicate 16 bigContentW := by
    show (prevW ++ [newConvMessage 2 "user".toList bigContentW none]).map
        (fun m => m.content) = _
    rw [List.map_append]
    simp only [prevW, bigMsgW, newConvMessage, List.map_replicate,
      List.map_cons, List.map_nil]
    rw [← List.replicate_succ']
  have hlen16 : (updatedHistory 2 "user".toList bigContentW none prevW).length
      = 16 := by
    simp [updatedHistory, prevW]
  have hj : (joinSpace ((updatedHistory 2 "user".toList bigContentW none prevW).map
      (fun m => m.content))).length = 33615 := by
    rw [hmap, joinSpace_length, List.map_replicate]
    unfold bigContentW
    rw [List.length_replicate, List.sum_replicate, List.length_replicate,
      smul_eq_mul]
  have htok : estimateTokens
      (updatedHistory 2 "user".toList bigContentW none prevW) > 8000 := by
    rw [estimateTokens_eq, hj]
    norm_num
  have hbig : (updatedHistory 2 "user".toList bigContentW none prevW).length
      > 15 := by
    rw [hlen16]
    omega
  exact ⟨htok, hbig,
    (C10_token_summarization 2 "user".toList bigContentW none prevW).1
      ⟨htok, hbig⟩⟩

end MedMind
